import Mathlib

/-!
Verification of the NairaRolls multisig wallet (`NairaRollsMultisig.sol`).

The contract is embedded shallowly as a deterministic state machine:

* machine integers (`uint256`) are `Nat`; the only arithmetic that can
  underflow in the source (`approvalCount--`, `pauseVotes--`) is guarded
  here exactly where Solidity 0.8 would revert with `Panic(0x11)`;
* `address` is `Nat`, the null address is `0`, and the contract's own
  address is the constant `SELF` (chosen above the 160-bit address range
  so it collides with no real externally owned account);
* a Solidity `mapping(address => bool)` is represented by the list of
  keys mapped to `true`; `mapping(address => uint256)` by an association
  list with default value `0` (Solidity's default storage value);
* the `transactions` mapping is the list of records indexed by id; the
  contract only ever writes record `nonce` and then increments `nonce`,
  so `nonce = transactions.length` holds in every state the contract
  builds, and the write is an append;
* calldata produced by `abi.encodeWithSelector` on the contract's own
  entry points is modelled by the tagged type `Payload`; `Payload.raw`
  stands for any byte string that matches none of those selectors;
* every entry point returns `Except String MState` where the `String`
  carries the revert reason; EVM revert semantics (a failed call leaves
  the pre-call storage intact) is expressed by `applyCall`, which keeps
  the incoming state on `.error`;
* the forwarded low-level call of `executeTransaction` to an address
  other than the contract itself is decided by a boolean oracle `ext`
  (the callee's behaviour is outside the model and its success state
  change does not touch this contract's storage); a call back into the
  contract itself is dispatched to the corresponding entry point with
  `msg.sender = SELF` and the OpenZeppelin reentrancy latch already
  taken, exactly as at run time;
* the cNGN token balance of the contract (`cNGN.balanceOf(this)`) is the
  field `balance`; `safeTransfer` reverts when the balance is short.
-/

deriving instance DecidableEq for Except

namespace NRM

abbrev Addr := Nat

/-- `MAX_BATCH_SIZE` from the source. -/
def MAX_BATCH_SIZE : Nat := 100

/-- `TRANSACTION_EXPIRY = 30 days`, in seconds. -/
def TRANSACTION_EXPIRY : Nat := 2592000

/-- The contract's own address, outside the 160-bit range of real accounts. -/
def SELF : Addr := 2 ^ 160

/-- `mapping(address => bool)` write `m[a] = true` on the true-key-set view. -/
def msetTrue (m : List Addr) (a : Addr) : List Addr :=
  if a ∈ m then m else a :: m

/-- `mapping(address => bool)` write `m[a] = false` (also `delete m[a]`). -/
def msetFalse (m : List Addr) (a : Addr) : List Addr :=
  m.erase a

/-- Lookup in a `mapping(address => uint256)`, defaulting to `0`. -/
def ilook : List (Addr × Nat) → Addr → Nat
  | [], _ => 0
  | p :: m, a => if p.1 = a then p.2 else ilook m a

/-- `mapping(address => uint256)` write `m[a] = v`. -/
def iset (m : List (Addr × Nat)) (a : Addr) (v : Nat) : List (Addr × Nat) :=
  (a, v) :: m.filter (fun p => p.1 ≠ a)

/-- `delete m[a]` on a `mapping(address => uint256)`. -/
def idel (m : List (Addr × Nat)) (a : Addr) : List (Addr × Nat) :=
  m.filter (fun p => p.1 ≠ a)

/-- Calldata for the contract: the encodings produced by
`abi.encodeWithSelector` on the contract's own entry points, plus `raw`
for any other byte string (`raw []` is empty calldata). -/
inductive Payload where
  | raw (bytes : List Nat)
  | addSignerCall (newSigner : Addr)
  | removeSignerCall (signerToRemove : Addr)
  | changeThresholdCall (newThreshold : Nat)
  | withdrawCall (recipient : Addr) (amount : Nat)
  | batchTransferCall (recipients : List Addr) (amounts : List Nat)
deriving Repr, DecidableEq

/-- `data.length == 0`: only the empty raw byte string is empty calldata
(every selector encoding is at least four bytes long). -/
def Payload.emptyData : Payload → Bool
  | .raw bytes => bytes.isEmpty
  | _ => false

/-- The `Transaction` struct.  `approvals` is the set of addresses the
per-transaction approval mapping sends to `true`. -/
structure Txn where
  target : Addr
  value : Nat
  data : Payload
  executed : Bool
  cancelled : Bool
  approvalCount : Nat
  submittedAt : Nat
  expiresAt : Nat
  approvals : List Addr
deriving Repr, DecidableEq

/-- The default (all-zero) transaction record of an untouched mapping slot. -/
def txn0 : Txn :=
  { target := 0, value := 0, data := .raw [], executed := false,
    cancelled := false, approvalCount := 0, submittedAt := 0,
    expiresAt := 0, approvals := [] }

/-- The contract's storage. -/
structure MState where
  signers : List Addr
  isSigner : List Addr
  signerIndex : List (Addr × Nat)
  threshold : Nat
  nonce : Nat
  transactions : List Txn
  balance : Nat
  paused : Bool
  pauseVotes : Nat
  pauseVoters : List Addr
deriving Repr, DecidableEq

/-- `transactions[txId]` (an unwritten slot reads as the zero record). -/
def getTxn (s : MState) (txId : Nat) : Txn :=
  s.transactions.getD txId txn0

/-- `transactions[txId] = t` for an already-assigned id. -/
def setTxn (s : MState) (txId : Nat) (t : Txn) : MState :=
  { s with transactions := s.transactions.set txId t }

/-- `_transactionExists`. -/
def txExists (s : MState) (txId : Nat) : Prop :=
  txId < s.nonce

instance (s : MState) (txId : Nat) : Decidable (txExists s txId) :=
  inferInstanceAs (Decidable (txId < s.nonce))

/-- The all-zero storage a fresh contract starts from. -/
def emptyState : MState :=
  { signers := [], isSigner := [], signerIndex := [], threshold := 0,
    nonce := 0, transactions := [], balance := 0, paused := false,
    pauseVotes := 0, pauseVoters := [] }

/-- The constructor's signer loop: duplicate/zero checks, then push and
record membership and index. -/
def ctorAddSigners : List Addr → MState → Except String MState
  | [], s => .ok s
  | a :: rest, s =>
    if a = 0 then .error "NRM: Invalid signer address"
    else if a ∈ s.isSigner then .error "NRM: Duplicate signer"
    else ctorAddSigners rest
      { s with signers := s.signers ++ [a],
               isSigner := msetTrue s.isSigner a,
               signerIndex := iset s.signerIndex a s.signers.length }

/-- The constructor. -/
def ctor (initialSigners : List Addr) (thr : Nat) : Except String MState :=
  if initialSigners.length = 0 then .error "NRM: At least one signer required"
  else if ¬ (0 < thr ∧ thr ≤ initialSigners.length) then .error "NRM: Invalid threshold"
  else
    match ctorAddSigners initialSigners emptyState with
    | .error e => .error e
    | .ok s => .ok { s with threshold := thr }

/-- `deposit`: the depositor-side token transfer is assumed funded; the
observable effect on the contract is the balance increase. -/
def deposit (amount : Nat) (s : MState) : Except String MState :=
  if s.paused then .error "NRM: Contract paused"
  else if amount = 0 then .error "NRM: Invalid deposit amount"
  else .ok { s with balance := s.balance + amount }

/-- `_createTransaction`: assign id `nonce`, bump `nonce`, write the fresh
record (30-day expiry window from `now = block.timestamp`). -/
def createTx (now : Nat) (target : Addr) (value : Nat) (data : Payload)
    (s : MState) : Nat × MState :=
  (s.nonce,
   { s with nonce := s.nonce + 1,
            transactions := s.transactions ++
              [{ target := target, value := value, data := data,
                 executed := false, cancelled := false, approvalCount := 0,
                 submittedAt := now, expiresAt := now + TRANSACTION_EXPIRY,
                 approvals := [] }] })

/-- `_approveTransaction`. -/
def approveCore (sender : Addr) (txId : Nat) (s : MState) : Except String MState :=
  if sender ∈ (getTxn s txId).approvals then .error "NRM: Already approved"
  else .ok (setTxn s txId
    { getTxn s txId with
        approvals := msetTrue (getTxn s txId).approvals sender,
        approvalCount := (getTxn s txId).approvalCount + 1 })

/-- `submitTransaction`. -/
def submitTransaction (sender : Addr) (now : Nat) (target : Addr)
    (value : Nat) (data : Payload) (s : MState) : Except String (Nat × MState) :=
  if sender ∉ s.isSigner then .error "NRM: Not authorized signer"
  else if s.paused then .error "NRM: Contract paused"
  else if target = 0 then .error "NRM: Invalid target address"
  else if data.emptyData = true ∧ value = 0 then .error "NRM: Empty transaction"
  else
    match approveCore sender s.nonce (createTx now target value data s).2 with
    | .error e => .error e
    | .ok s2 => .ok (s.nonce, s2)

/-- The recipient/amount validation loop of `submitBatchPayment`,
returning the accumulated total. -/
def validateBatch : List Addr → List Nat → Except String Nat
  | [], [] => .ok 0
  | r :: rs, amt :: amts =>
    if r = 0 then .error "NRM: Invalid recipient"
    else if amt = 0 then .error "NRM: Invalid amount"
    else
      match validateBatch rs amts with
      | .error e => .error e
      | .ok total => .ok (amt + total)
  | _, _ => .error "NRM: Array length mismatch"

/-- `submitBatchPayment`: validate, check the pooled balance, then create
a self-targeted transaction whose payload is the `executeBatchTransfer`
encoding of the same lists, auto-approved by the submitter. -/
def submitBatchPayment (sender : Addr) (now : Nat) (recipients : List Addr)
    (amounts : List Nat) (s : MState) : Except String (Nat × MState) :=
  if sender ∉ s.isSigner then .error "NRM: Not authorized signer"
  else if s.paused then .error "NRM: Contract paused"
  else if recipients.length ≠ amounts.length then .error "NRM: Array length mismatch"
  else if ¬ (0 < recipients.length ∧ recipients.length ≤ MAX_BATCH_SIZE) then
    .error "NRM: Invalid batch size"
  else
    match validateBatch recipients amounts with
    | .error e => .error e
    | .ok total =>
      if s.balance < total then .error "NRM: Insufficient balance"
      else
        match approveCore sender s.nonce
            (createTx now SELF 0 (.batchTransferCall recipients amounts) s).2 with
        | .error e => .error e
        | .ok s2 => .ok (s.nonce, s2)

/-- `approveTransaction`. -/
def approveTransaction (sender : Addr) (now : Nat) (txId : Nat)
    (s : MState) : Except String MState :=
  if sender ∉ s.isSigner then .error "NRM: Not authorized signer"
  else if s.paused then .error "NRM: Contract paused"
  else if ¬ txExists s txId then .error "NRM: Transaction does not exist"
  else if (getTxn s txId).executed = true ∨ (getTxn s txId).cancelled = true then
    .error "NRM: Transaction finalized"
  else if ¬ (now ≤ (getTxn s txId).expiresAt) then .error "NRM: Transaction expired"
  else approveCore sender txId s

/-- `revokeApproval` (the `approvalCount--` underflow guard is where
Solidity 0.8 would raise `Panic(0x11)`). -/
def revokeApproval (sender : Addr) (now : Nat) (txId : Nat)
    (s : MState) : Except String MState :=
  if sender ∉ s.isSigner then .error "NRM: Not authorized signer"
  else if s.paused then .error "NRM: Contract paused"
  else if ¬ txExists s txId then .error "NRM: Transaction does not exist"
  else if (getTxn s txId).executed = true ∨ (getTxn s txId).cancelled = true then
    .error "NRM: Transaction finalized"
  else if ¬ (now ≤ (getTxn s txId).expiresAt) then .error "NRM: Transaction expired"
  else if sender ∉ (getTxn s txId).approvals then .error "NRM: Not previously approved"
  else if (getTxn s txId).approvalCount = 0 then .error "Panic(0x11)"
  else .ok (setTxn s txId
    { getTxn s txId with
        approvals := msetFalse (getTxn s txId).approvals sender,
        approvalCount := (getTxn s txId).approvalCount - 1 })

/-- `cancelTransaction`: before expiry only a holder of an approval (the
code's proxy for "the submitter") may cancel; afterwards any signer. -/
def cancelTransaction (sender : Addr) (now : Nat) (txId : Nat)
    (s : MState) : Except String MState :=
  if sender ∉ s.isSigner then .error "NRM: Not authorized signer"
  else if s.paused then .error "NRM: Contract paused"
  else if ¬ txExists s txId then .error "NRM: Transaction does not exist"
  else if (getTxn s txId).executed = true ∨ (getTxn s txId).cancelled = true then
    .error "NRM: Transaction finalized"
  else if now ≤ (getTxn s txId).expiresAt ∧
      ¬ (sender ∈ (getTxn s txId).approvals ∧ 0 < (getTxn s txId).approvalCount) then
    .error "NRM: Only submitter can cancel"
  else .ok (setTxn s txId { getTxn s txId with cancelled := true })

/-- `addSigner`, reachable only with `msg.sender == address(this)`. -/
def addSigner (caller : Addr) (newSigner : Addr) (s : MState) : Except String MState :=
  if caller ≠ SELF then .error "NRM: Only via multisig"
  else if newSigner = 0 then .error "NRM: Invalid signer address"
  else if newSigner ∈ s.isSigner then .error "NRM: Already a signer"
  else .ok { s with signers := s.signers ++ [newSigner],
                    isSigner := msetTrue s.isSigner newSigner,
                    signerIndex := iset s.signerIndex newSigner s.signers.length }

/-- `removeSigner`, reachable only with `msg.sender == address(this)`:
swap-with-last, truncate, purge the membership/index entries and the
pause-vote participation. -/
def removeSigner (caller : Addr) (signerToRemove : Addr) (s : MState) :
    Except String MState :=
  if caller ≠ SELF then .error "NRM: Only via multisig"
  else if signerToRemove ∉ s.isSigner then .error "NRM: Not a signer"
  else if ¬ (1 < s.signers.length) then .error "NRM: Cannot remove last signer"
  else
    let index := ilook s.signerIndex signerToRemove
    let lastIndex := s.signers.length - 1
    let s1 :=
      if index ≠ lastIndex then
        { s with signers := s.signers.set index (s.signers.getD lastIndex 0),
                 signerIndex := iset s.signerIndex (s.signers.getD lastIndex 0) index }
      else s
    let s2 := { s1 with signers := s1.signers.dropLast,
                        isSigner := msetFalse s1.isSigner signerToRemove,
                        signerIndex := idel s1.signerIndex signerToRemove }
    if signerToRemove ∈ s2.pauseVoters then
      if s2.pauseVotes = 0 then .error "Panic(0x11)"
      else .ok { s2 with pauseVoters := msetFalse s2.pauseVoters signerToRemove,
                         pauseVotes := s2.pauseVotes - 1 }
    else .ok s2

/-- `changeThreshold`, reachable only with `msg.sender == address(this)`. -/
def changeThreshold (caller : Addr) (newThreshold : Nat) (s : MState) :
    Except String MState :=
  if caller ≠ SELF then .error "NRM: Only via multisig"
  else if ¬ (0 < newThreshold ∧ newThreshold ≤ s.signers.length) then
    .error "NRM: Invalid threshold"
  else .ok { s with threshold := newThreshold }

/-- `executeWithdraw`, reachable only with `msg.sender == address(this)`;
`safeTransfer` reverts when the pooled balance is short. -/
def executeWithdraw (caller : Addr) (recipient : Addr) (amount : Nat)
    (s : MState) : Except String MState :=
  if caller ≠ SELF then .error "NRM: Only via multisig execution"
  else if recipient = 0 then .error "NRM: Invalid recipient"
  else if amount = 0 then .error "NRM: Invalid amount"
  else if s.balance < amount then .error "ERC20: transfer amount exceeds balance"
  else .ok { s with balance := s.balance - amount }

/-- The transfer loop of `executeBatchTransfer`. -/
def execBatchCore : List Addr → List Nat → MState → Except String MState
  | [], [], s => .ok s
  | r :: rs, amt :: amts, s =>
    if r = 0 then .error "NRM: Invalid recipient"
    else if amt = 0 then .error "NRM: Invalid amount"
    else if s.balance < amt then .error "ERC20: transfer amount exceeds balance"
    else execBatchCore rs amts { s with balance := s.balance - amt }
  | _, _, _ => .error "NRM: Array length mismatch"

/-- `executeBatchTransfer`: `nonReentrant`, so the call fails whenever the
contract-wide reentrancy latch (`entered`) is already taken — which is
always the case when it is reached through `executeTransaction`. -/
def executeBatchTransfer (entered : Bool) (caller : Addr)
    (recipients : List Addr) (amounts : List Nat) (s : MState) :
    Except String MState :=
  if entered = true then .error "ReentrancyGuard: reentrant call"
  else if caller ≠ SELF then .error "NRM: Only via multisig execution"
  else if recipients.length ≠ amounts.length then .error "NRM: Array length mismatch"
  else if recipients.length = 0 then .error "NRM: No recipients provided"
  else execBatchCore recipients amounts s

/-- The forwarded self-call of `executeTransaction`: route the payload to
the entry point its selector names, with `msg.sender = address(this)` and
the reentrancy latch taken.  The targeted entry points are not `payable`,
so a non-zero forwarded value reverts with empty return data (modelled by
the empty reason, which the caller maps to its generic failure message);
empty calldata lands in the payable `receive`, any other unknown byte
string in the reverting `fallback`. -/
def dispatchSelf (value : Nat) (data : Payload) (s : MState) :
    Except String MState :=
  match data with
  | .raw bytes => if bytes.isEmpty then .ok s else .error "NRM: Function not found"
  | .addSignerCall a =>
    if value ≠ 0 then .error "" else addSigner SELF a s
  | .removeSignerCall a =>
    if value ≠ 0 then .error "" else removeSigner SELF a s
  | .changeThresholdCall n =>
    if value ≠ 0 then .error "" else changeThreshold SELF n s
  | .withdrawCall r amt =>
    if value ≠ 0 then .error "" else executeWithdraw SELF r amt s
  | .batchTransferCall rs amts =>
    if value ≠ 0 then .error "" else executeBatchTransfer true SELF rs amts s

/-- `txn.target.call{value: txn.value}(txn.data)`: a self-call is
dispatched in-model; a call to any other address is decided by the oracle
`ext` and, on success, leaves this contract's storage untouched (the
callee's storage is outside the model). -/
def doCall (ext : Bool) (target : Addr) (value : Nat) (data : Payload)
    (s : MState) : Except String MState :=
  if target = SELF then dispatchSelf value data s
  else if ext = true then .ok s
  else .error ""

/-- `executeTransaction`: guards, mark `executed` first, then forward the
call; a failed forward re-raises the callee's reason when there is one,
else the generic execution-failure message — and, being a revert,
discards the `executed` mark together with every other effect. -/
def executeTransaction (now : Nat) (ext : Bool) (txId : Nat) (s : MState) :
    Except String MState :=
  if s.paused then .error "NRM: Contract paused"
  else if ¬ txExists s txId then .error "NRM: Transaction does not exist"
  else if (getTxn s txId).executed = true ∨ (getTxn s txId).cancelled = true then
    .error "NRM: Transaction finalized"
  else if ¬ (now ≤ (getTxn s txId).expiresAt) then .error "NRM: Transaction expired"
  else if (getTxn s txId).approvalCount < s.threshold then
    .error "NRM: Insufficient approvals"
  else
    match doCall ext (getTxn s txId).target (getTxn s txId).value
        (getTxn s txId).data (setTxn s txId { getTxn s txId with executed := true }) with
    | .ok s2 => .ok s2
    | .error e => .error (if e = "" then "NRM: Transaction execution failed" else e)

/-- `expireTransaction` — note: no signer gate and no pause gate. -/
def expireTransaction (now : Nat) (txId : Nat) (s : MState) :
    Except String MState :=
  if ¬ txExists s txId then .error "NRM: Transaction does not exist"
  else if (getTxn s txId).executed = true ∨ (getTxn s txId).cancelled = true then
    .error "NRM: Transaction finalized"
  else if ¬ ((getTxn s txId).expiresAt < now) then .error "NRM: Not yet expired"
  else .ok (setTxn s txId { getTxn s txId with cancelled := true })

/-- `submitAddSigner`. -/
def submitAddSigner (sender : Addr) (now : Nat) (newSigner : Addr)
    (s : MState) : Except String (Nat × MState) :=
  if sender ∉ s.isSigner then .error "NRM: Not authorized signer"
  else if s.paused then .error "NRM: Contract paused"
  else if newSigner = 0 then .error "NRM: Invalid signer address"
  else if newSigner ∈ s.isSigner then .error "NRM: Already a signer"
  else submitTransaction sender now SELF 0 (.addSignerCall newSigner) s

/-- `submitRemoveSigner`: checks, at submission time only, that the
threshold stays satisfiable after the removal. -/
def submitRemoveSigner (sender : Addr) (now : Nat) (signerToRemove : Addr)
    (s : MState) : Except String (Nat × MState) :=
  if sender ∉ s.isSigner then .error "NRM: Not authorized signer"
  else if s.paused then .error "NRM: Contract paused"
  else if signerToRemove ∉ s.isSigner then .error "NRM: Not a signer"
  else if ¬ (1 < s.signers.length) then .error "NRM: Cannot remove last signer"
  else if s.signers.length - 1 < s.threshold then .error "NRM: Would invalidate threshold"
  else submitTransaction sender now SELF 0 (.removeSignerCall signerToRemove) s

/-- `submitChangeThreshold`. -/
def submitChangeThreshold (sender : Addr) (now : Nat) (newThreshold : Nat)
    (s : MState) : Except String (Nat × MState) :=
  if sender ∉ s.isSigner then .error "NRM: Not authorized signer"
  else if s.paused then .error "NRM: Contract paused"
  else if ¬ (0 < newThreshold ∧ newThreshold ≤ s.signers.length) then
    .error "NRM: Invalid threshold"
  else if newThreshold = s.threshold then .error "NRM: Same threshold"
  else submitTransaction sender now SELF 0 (.changeThresholdCall newThreshold) s

/-- `submitWithdraw`. -/
def submitWithdraw (sender : Addr) (now : Nat) (recipient : Addr)
    (amount : Nat) (s : MState) : Except String (Nat × MState) :=
  if sender ∉ s.isSigner then .error "NRM: Not authorized signer"
  else if s.paused then .error "NRM: Contract paused"
  else if recipient = 0 then .error "NRM: Invalid recipient"
  else if amount = 0 then .error "NRM: Invalid amount"
  else if s.balance < amount then .error "NRM: Insufficient balance"
  else submitTransaction sender now SELF 0 (.withdrawCall recipient amount) s

/-- `votePause`: record the vote, then flip `paused` once the running
count reaches the majority bound `signers.length / 2 + 1`. -/
def votePause (sender : Addr) (s : MState) : Except String MState :=
  if sender ∉ s.isSigner then .error "NRM: Not authorized signer"
  else if s.paused then .error "NRM: Already paused"
  else if sender ∈ s.pauseVoters then .error "NRM: Already voted to pause"
  else
    let s1 := { s with pauseVoters := msetTrue s.pauseVoters sender,
                       pauseVotes := s.pauseVotes + 1 }
    if s.signers.length / 2 + 1 ≤ s1.pauseVotes then .ok { s1 with paused := true }
    else .ok s1

/-- `_resetPauseVotes`: clear the flag of every current signer and zero
the counter. -/
def resetPauseVotes (s : MState) : MState :=
  { s with pauseVoters := s.signers.foldl msetFalse s.pauseVoters,
           pauseVotes := 0 }

/-- `voteUnpause`: requires the contract to be paused and the caller to
have voted; un-votes, and once the count is below the majority bound,
unpauses and resets every signer's vote flag. -/
def voteUnpause (sender : Addr) (s : MState) : Except String MState :=
  if sender ∉ s.isSigner then .error "NRM: Not authorized signer"
  else if s.paused = false then .error "NRM: Not paused"
  else if sender ∉ s.pauseVoters then .error "NRM: Must have voted to pause first"
  else if s.pauseVotes = 0 then .error "Panic(0x11)"
  else
    let s1 := { s with pauseVoters := msetFalse s.pauseVoters sender,
                       pauseVotes := s.pauseVotes - 1 }
    if s1.pauseVotes < s.signers.length / 2 + 1 then
      .ok { resetPauseVotes s1 with paused := false }
    else .ok s1

/-- The payable `receive` fallback: accepts plain value transfers in any
state (the native-currency balance is outside the modelled storage). -/
def receiveEth (s : MState) : Except String MState :=
  .ok s

/-- One externally submitted call to the contract, with its environment:
`sender = msg.sender`, `now = block.timestamp`, and for `execute` the
oracle deciding a forwarded call to a foreign target. -/
inductive Act where
  | depositA (sender : Addr) (amount : Nat)
  | submitA (sender : Addr) (now : Nat) (target : Addr) (value : Nat) (data : Payload)
  | submitBatchA (sender : Addr) (now : Nat) (recipients : List Addr) (amounts : List Nat)
  | approveA (sender : Addr) (now : Nat) (txId : Nat)
  | revokeA (sender : Addr) (now : Nat) (txId : Nat)
  | cancelA (sender : Addr) (now : Nat) (txId : Nat)
  | executeA (now : Nat) (ext : Bool) (txId : Nat)
  | expireA (now : Nat) (txId : Nat)
  | submitAddSignerA (sender : Addr) (now : Nat) (newSigner : Addr)
  | submitRemoveSignerA (sender : Addr) (now : Nat) (signerToRemove : Addr)
  | submitChangeThresholdA (sender : Addr) (now : Nat) (newThreshold : Nat)
  | submitWithdrawA (sender : Addr) (now : Nat) (recipient : Addr) (amount : Nat)
  | votePauseA (sender : Addr)
  | voteUnpauseA (sender : Addr)
  | receiveA
deriving Repr, DecidableEq

/-- Run one externally submitted call. -/
def run : Act → MState → Except String MState
  | .depositA _ amount, s => deposit amount s
  | .submitA sender now target value data, s =>
    match submitTransaction sender now target value data s with
    | .ok r => .ok r.2
    | .error e => .error e
  | .submitBatchA sender now recipients amounts, s =>
    match submitBatchPayment sender now recipients amounts s with
    | .ok r => .ok r.2
    | .error e => .error e
  | .approveA sender now txId, s => approveTransaction sender now txId s
  | .revokeA sender now txId, s => revokeApproval sender now txId s
  | .cancelA sender now txId, s => cancelTransaction sender now txId s
  | .executeA now ext txId, s => executeTransaction now ext txId s
  | .expireA now txId, s => expireTransaction now txId s
  | .submitAddSignerA sender now a, s =>
    match submitAddSigner sender now a s with
    | .ok r => .ok r.2
    | .error e => .error e
  | .submitRemoveSignerA sender now a, s =>
    match submitRemoveSigner sender now a s with
    | .ok r => .ok r.2
    | .error e => .error e
  | .submitChangeThresholdA sender now n, s =>
    match submitChangeThreshold sender now n s with
    | .ok r => .ok r.2
    | .error e => .error e
  | .submitWithdrawA sender now r0 amt, s =>
    match submitWithdraw sender now r0 amt s with
    | .ok r => .ok r.2
    | .error e => .error e
  | .votePauseA sender, s => votePause sender s
  | .voteUnpauseA sender, s => voteUnpause sender s
  | .receiveA, s => receiveEth s

/-- EVM revert semantics: the state after a call is its result on
success and the untouched incoming state on revert. -/
def applyCall (s : MState) (r : Except String MState) : MState :=
  match r with
  | .ok s2 => s2
  | .error _ => s

/-- States reachable from a successful constructor call by any sequence
of successful operations. -/
inductive Reachable : MState → Prop where
  | init (initialSigners : List Addr) (thr : Nat) (s : MState) :
      ctor initialSigners thr = .ok s → Reachable s
  | step (a : Act) (s s' : MState) :
      Reachable s → run a s = .ok s' → Reachable s'

def TxOK (t : Txn) : Prop :=
  t.approvalCount = t.approvals.length ∧ t.approvals.Nodup

def Inv (s : MState) : Prop :=
  s.nonce = s.transactions.length ∧ 1 ≤ s.threshold ∧ ∀ t ∈ s.transactions, TxOK t

/-- The signer-sequence effect of `removeSigner`, exactly as the source
computes it: when the removed index is not the last one, overwrite it
with the last entry, then truncate. -/
def swapRemove (l : List Addr) (idx : Nat) : List Addr :=
  (if idx ≠ l.length - 1 then l.set idx (l.getD (l.length - 1) 0) else l).dropLast

/-! ### Concrete instances used to settle the individual claims -/

/-- Start of a two-signer wallet with full quorum.  The trace
`c1A → c1B → c1C → c1D` submits a self-targeted `removeSigner(2)`
proposal, has both signers approve it, and executes it. -/
def c1A : MState := (ctor [1, 2] 2).toOption.getD emptyState

def c1B : MState :=
  (run (.submitA 1 0 SELF 0 (.removeSignerCall 2)) c1A).toOption.getD emptyState

def c1C : MState := (run (.approveA 2 0 0) c1B).toOption.getD emptyState

def c1D : MState := (run (.executeA 0 true 0) c1C).toOption.getD emptyState

/-- A fully approved, unexpired batch-payment transaction. -/
def c2Txn : Txn :=
  { target := SELF, value := 0, data := .batchTransferCall [5] [10],
    executed := false, cancelled := false, approvalCount := 1,
    submittedAt := 0, expiresAt := 100, approvals := [1] }

def c2State : MState :=
  { signers := [1], isSigner := [1], signerIndex := [(1, 0)], threshold := 1,
    nonce := 1, transactions := [c2Txn], balance := 100, paused := false,
    pauseVotes := 0, pauseVoters := [] }

def w2Txn : Txn :=
  { target := 7, value := 0, data := .raw [9], executed := false,
    cancelled := false, approvalCount := 1, submittedAt := 0,
    expiresAt := 50, approvals := [1] }

def w2State : MState :=
  { signers := [1], isSigner := [1], signerIndex := [(1, 0)], threshold := 1,
    nonce := 1, transactions := [w2Txn], balance := 0, paused := false,
    pauseVotes := 0, pauseVoters := [] }

def w3Txn : Txn :=
  { target := 7, value := 0, data := .raw [9], executed := false,
    cancelled := false, approvalCount := 1, submittedAt := 0,
    expiresAt := 50, approvals := [1] }

def w3State : MState :=
  { signers := [1], isSigner := [1], signerIndex := [(1, 0)], threshold := 1,
    nonce := 1, transactions := [w3Txn], balance := 0, paused := false,
    pauseVotes := 0, pauseVoters := [] }

/-- `w3State` with the record marked executed, the state from which the
forwarded call is made. -/
def w3Marked : MState := setTxn w3State 0 { getTxn w3State 0 with executed := true }

def c4Txn : Txn :=
  { target := 7, value := 0, data := .raw [1], executed := false,
    cancelled := false, approvalCount := 1, submittedAt := 0,
    expiresAt := 10, approvals := [1] }

/-- A paused wallet holding one pending, already-expired transaction. -/
def c4State : MState :=
  { signers := [1, 2], isSigner := [1, 2], signerIndex := [(1, 0), (2, 1)],
    threshold := 1, nonce := 1, transactions := [c4Txn], balance := 0,
    paused := true, pauseVotes := 1, pauseVoters := [1] }

def w5Txn : Txn :=
  { target := 7, value := 0, data := .raw [1], executed := true,
    cancelled := false, approvalCount := 1, submittedAt := 0,
    expiresAt := 10, approvals := [1] }

def w5State : MState :=
  { signers := [1], isSigner := [1], signerIndex := [(1, 0)], threshold := 1,
    nonce := 1, transactions := [w5Txn], balance := 0, paused := false,
    pauseVotes := 0, pauseVoters := [] }

def w5After : MState := { w5State with balance := 5 }

def w6State : MState :=
  { signers := [1, 2, 3], isSigner := [1, 2, 3],
    signerIndex := [(1, 0), (2, 1), (3, 2)], threshold := 1, nonce := 0,
    transactions := [], balance := 0, paused := false, pauseVotes := 1,
    pauseVoters := [1] }

/-- Five signers, one standing pause vote, not paused. -/
def c7State : MState :=
  { signers := [1, 2, 3, 4, 5], isSigner := [1, 2, 3, 4, 5],
    signerIndex := [(1, 0), (2, 1), (3, 2), (4, 3), (5, 4)], threshold := 2,
    nonce := 0, transactions := [], balance := 0, paused := false,
    pauseVotes := 1, pauseVoters := [1] }

/-- `c7State` paused by three standing votes (majority bound 3). -/
def c7StateB : MState :=
  { c7State with paused := true, pauseVotes := 3, pauseVoters := [1, 2, 3] }

def w7State : MState :=
  { signers := [1, 2, 3], isSigner := [1, 2, 3],
    signerIndex := [(1, 0), (2, 1), (3, 2)], threshold := 2, nonce := 0,
    transactions := [], balance := 0, paused := false, pauseVotes := 1,
    pauseVoters := [1] }

def w8State : MState :=
  { signers := [1], isSigner := [1], signerIndex := [(1, 0)], threshold := 1,
    nonce := 0, transactions := [], balance := 300, paused := false,
    pauseVotes := 0, pauseVoters := [] }

def w9Txn : Txn :=
  { target := 7, value := 0, data := .raw [1], executed := false,
    cancelled := false, approvalCount := 1, submittedAt := 0,
    expiresAt := 100, approvals := [1] }

def w9State : MState :=
  { signers := [1, 2], isSigner := [1, 2], signerIndex := [(1, 0), (2, 1)],
    threshold := 2, nonce := 1, transactions := [w9Txn], balance := 0,
    paused := false, pauseVotes := 0, pauseVoters := [] }

/-- Two signers with a full-quorum threshold: removing either signer
would leave the threshold unsatisfiable. -/
def w10State : MState :=
  { signers := [1, 2], isSigner := [1, 2], signerIndex := [(1, 0), (2, 1)],
    threshold := 2, nonce := 0, transactions := [], balance := 0,
    paused := false, pauseVotes := 0, pauseVoters := [] }

/-! ### Basic lemmas about the mapping representations -/

theorem mem_msetTrue {m : List Addr} {a b : Addr} :
    b ∈ msetTrue m a ↔ b = a ∨ b ∈ m := by
  unfold msetTrue
  split
  · rename_i h
    constructor
    · exact Or.inr
    · rintro (rfl | hb)
      · exact h
      · exact hb
  · exact List.mem_cons

theorem nodup_msetTrue {m : List Addr} {a : Addr} (h : m.Nodup) :
    (msetTrue m a).Nodup := by
  unfold msetTrue
  split
  · exact h
  · exact List.Nodup.cons (by assumption) h

theorem length_msetTrue_of_not_mem {m : List Addr} {a : Addr} (h : a ∉ m) :
    (msetTrue m a).length = m.length + 1 := by
  simp [msetTrue, h]

theorem mem_msetFalse {m : List Addr} {a b : Addr} (hnd : m.Nodup) :
    b ∈ msetFalse m a ↔ b ≠ a ∧ b ∈ m :=
  hnd.mem_erase_iff

theorem nodup_msetFalse {m : List Addr} {a : Addr} (h : m.Nodup) :
    (msetFalse m a).Nodup :=
  h.erase a

theorem length_msetFalse_of_mem {m : List Addr} {a : Addr} (h : a ∈ m) :
    (msetFalse m a).length = m.length - 1 :=
  List.length_erase_of_mem h

theorem ilook_iset_self (m : List (Addr × Nat)) (a : Addr) (v : Nat) :
    ilook (iset m a v) a = v := by
  simp [iset, ilook]

theorem ilook_filter_ne {m : List (Addr × Nat)} {a b : Addr} (hab : b ≠ a) :
    ilook (m.filter (fun p => p.1 ≠ a)) b = ilook m b := by
  induction m with
  | nil => rfl
  | cons p m ih =>
    by_cases hp : p.1 = a
    · rw [List.filter_cons_of_neg (by simp [hp]), ih]
      have hpb : ¬ p.1 = b := by rw [hp]; exact Ne.symm hab
      simp only [ilook, hpb, if_false]
    · rw [List.filter_cons_of_pos (by simp [hp])]
      simp only [ilook]
      split
      · rfl
      · exact ih

theorem ilook_iset_ne (m : List (Addr × Nat)) {a b : Addr} (v : Nat)
    (hab : b ≠ a) : ilook (iset m a v) b = ilook m b := by
  rw [iset, ilook]
  simp only [Ne.symm hab, if_false]
  exact ilook_filter_ne hab

theorem ilook_idel_ne (m : List (Addr × Nat)) {a b : Addr}
    (hab : b ≠ a) : ilook (idel m a) b = ilook m b :=
  ilook_filter_ne hab

/-! ### Lemmas about transaction storage access -/

theorem getTxn_setTxn_self {s : MState} {txId : Nat} {t : Txn}
    (h : txId < s.transactions.length) : getTxn (setTxn s txId t) txId = t := by
  unfold getTxn setTxn
  rw [List.getD_eq_getElem _ _ (by simpa using h)]
  simp

theorem getTxn_setTxn_ne {s : MState} {txId i : Nat} {t : Txn}
    (h : i ≠ txId) : getTxn (setTxn s txId t) i = getTxn s i := by
  unfold getTxn setTxn
  simp only [List.getD_eq_getElem?_getD, List.getElem?_set_ne (Ne.symm h)]

theorem getTxn_of_ge {s : MState} {i : Nat}
    (h : s.transactions.length ≤ i) : getTxn s i = txn0 :=
  List.getD_eq_default _ _ h

theorem transactions_setTxn_length (s : MState) (txId : Nat) (t : Txn) :
    (setTxn s txId t).transactions.length = s.transactions.length := by
  simp [setTxn]

/-! ### The bookkeeping invariant

`TxOK` is the per-record ledger-consistency property: the stored
`approvalCount` is the number of (distinct) approvers in the ledger.
`Inv` is the machine-level invariant: transaction ids are exactly
`0 .. nonce-1`, the threshold is positive, and every record is
ledger-consistent. -/


theorem Inv_setTxn {s : MState} {txId : Nat} {t : Txn}
    (h : Inv s) (ht : TxOK t) : Inv (setTxn s txId t) := by
  obtain ⟨h1, h2, h3⟩ := h
  refine ⟨by simpa [setTxn] using h1, h2, ?_⟩
  intro u hu
  rcases List.mem_or_eq_of_mem_set hu with hu' | rfl
  · exact h3 u hu'
  · exact ht

theorem TxOK_txn0 : TxOK txn0 := ⟨rfl, List.nodup_nil⟩

theorem TxOK_getTxn {s : MState} (h : Inv s) (i : Nat) : TxOK (getTxn s i) := by
  by_cases hi : i < s.transactions.length
  · have : getTxn s i = s.transactions[i] := List.getD_eq_getElem _ _ hi
    rw [this]
    exact h.2.2 _ (s.transactions.getElem_mem hi)
  · rw [getTxn_of_ge (Nat.le_of_not_lt hi)]
    exact TxOK_txn0

theorem TxOK_mark_executed {t : Txn} (h : TxOK t) (b : Bool) :
    TxOK { t with executed := b } := h

theorem TxOK_mark_cancelled {t : Txn} (h : TxOK t) (b : Bool) :
    TxOK { t with cancelled := b } := h

theorem createTx_inv {now : Nat} {target : Addr} {value : Nat} {data : Payload}
    {s : MState} (h : Inv s) : Inv (createTx now target value data s).2 := by
  obtain ⟨h1, h2, h3⟩ := h
  refine ⟨by simp [createTx, h1], h2, ?_⟩
  intro u hu
  simp only [createTx, List.mem_append, List.mem_singleton] at hu
  rcases hu with hu | rfl
  · exact h3 u hu
  · exact ⟨rfl, List.nodup_nil⟩

theorem approveCore_inv {sender : Addr} {txId : Nat} {s s' : MState}
    (h : Inv s) (hok : approveCore sender txId s = .ok s') : Inv s' := by
  unfold approveCore at hok
  split_ifs at hok with hmem
  injection hok with hok
  subst hok
  refine Inv_setTxn h ?_
  obtain ⟨hc, hnd⟩ := TxOK_getTxn h txId
  exact ⟨by rw [hc, length_msetTrue_of_not_mem hmem], nodup_msetTrue hnd⟩

theorem submitTransaction_inv {sender : Addr} {now : Nat} {target : Addr}
    {value : Nat} {data : Payload} {s : MState} {r : Nat × MState}
    (h : Inv s) (hok : submitTransaction sender now target value data s = .ok r) :
    Inv r.2 := by
  unfold submitTransaction at hok
  split_ifs at hok
  revert hok
  split
  · intro hok
    cases hok
  · rename_i s2 heq
    intro hok
    injection hok with hok
    subst hok
    exact approveCore_inv (createTx_inv h) heq

theorem submitBatchPayment_inv {sender : Addr} {now : Nat}
    {recipients : List Addr} {amounts : List Nat} {s : MState} {r : Nat × MState}
    (h : Inv s) (hok : submitBatchPayment sender now recipients amounts s = .ok r) :
    Inv r.2 := by
  unfold submitBatchPayment at hok
  split_ifs at hok
  revert hok
  split
  · intro hok
    cases hok
  · intro hok
    split_ifs at hok
    revert hok
    split
    · intro hok
      cases hok
    · rename_i s2 heq
      intro hok
      injection hok with hok
      subst hok
      exact approveCore_inv (createTx_inv h) heq

theorem revokeApproval_inv {sender : Addr} {now txId : Nat} {s s' : MState}
    (h : Inv s) (hok : revokeApproval sender now txId s = .ok s') : Inv s' := by
  unfold revokeApproval at hok
  split_ifs at hok with h1 h2 h3 h4 h5 h6 h7
  injection hok with hok
  subst hok
  refine Inv_setTxn h ?_
  obtain ⟨hc, hnd⟩ := TxOK_getTxn h txId
  refine ⟨?_, nodup_msetFalse hnd⟩
  rw [hc, length_msetFalse_of_mem (by simpa using h6)]

theorem cancelTransaction_inv {sender : Addr} {now txId : Nat} {s s' : MState}
    (h : Inv s) (hok : cancelTransaction sender now txId s = .ok s') : Inv s' := by
  unfold cancelTransaction at hok
  split_ifs at hok
  injection hok with hok
  subst hok
  exact Inv_setTxn h (TxOK_mark_cancelled (TxOK_getTxn h txId) true)

theorem expireTransaction_inv {now txId : Nat} {s s' : MState}
    (h : Inv s) (hok : expireTransaction now txId s = .ok s') : Inv s' := by
  unfold expireTransaction at hok
  split_ifs at hok
  injection hok with hok
  subst hok
  exact Inv_setTxn h (TxOK_mark_cancelled (TxOK_getTxn h txId) true)

theorem execBatchCore_fields : ∀ (rs : List Addr) (amts : List Nat)
    (s s' : MState), execBatchCore rs amts s = .ok s' →
    s'.transactions = s.transactions ∧ s'.nonce = s.nonce ∧
      s'.threshold = s.threshold ∧ s'.paused = s.paused
  | [], [], s, s', h => by
    unfold execBatchCore at h
    injection h with h
    subst h
    exact ⟨rfl, rfl, rfl, rfl⟩
  | [], _ :: _, _, _, h => by cases h
  | _ :: _, [], _, _, h => by cases h
  | r0 :: rs, amt :: amts, s, s', h => by
    unfold execBatchCore at h
    split_ifs at h
    obtain ⟨h1, h2, h3, h4⟩ := execBatchCore_fields rs amts _ s' h
    exact ⟨h1, h2, h3, h4⟩

theorem removeSigner_fields {caller a : Addr} {s s' : MState}
    (h : removeSigner caller a s = .ok s') :
    s'.transactions = s.transactions ∧ s'.nonce = s.nonce ∧
      s'.threshold = s.threshold ∧ s'.paused = s.paused ∧
      s'.balance = s.balance := by
  simp only [removeSigner] at h
  split_ifs at h <;>
    first
      | (injection h with h; subst h; exact ⟨rfl, rfl, rfl, rfl, rfl⟩)
      | cases h

theorem dispatchSelf_fields {value : Nat} {data : Payload} {s s' : MState}
    (h : dispatchSelf value data s = .ok s') :
    s'.transactions = s.transactions ∧ s'.nonce = s.nonce ∧
      s'.paused = s.paused ∧ (1 ≤ s.threshold → 1 ≤ s'.threshold) := by
  unfold dispatchSelf at h
  split at h
  · split_ifs at h
    injection h with h
    subst h
    exact ⟨rfl, rfl, rfl, fun h => h⟩
  · split_ifs at h
    unfold addSigner at h
    split_ifs at h
    injection h with h
    subst h
    exact ⟨rfl, rfl, rfl, fun h => h⟩
  · split_ifs at h
    obtain ⟨h1, h2, h3, h4, _⟩ := removeSigner_fields h
    exact ⟨h1, h2, h4, fun hthr => h3 ▸ hthr⟩
  · split_ifs at h
    unfold changeThreshold at h
    split_ifs at h with hc1 hc2
    injection h with h
    subst h
    exact ⟨rfl, rfl, rfl, fun _ => hc2.1⟩
  · split_ifs at h
    unfold executeWithdraw at h
    split_ifs at h
    injection h with h
    subst h
    exact ⟨rfl, rfl, rfl, fun h => h⟩
  · split_ifs at h
    unfold executeBatchTransfer at h
    split_ifs at h <;>
      first
        | cases h
        | exact absurd rfl (by assumption)

theorem doCall_fields {ext : Bool} {target : Addr} {value : Nat}
    {data : Payload} {s s' : MState} (h : doCall ext target value data s = .ok s') :
    s'.transactions = s.transactions ∧ s'.nonce = s.nonce ∧
      s'.paused = s.paused ∧ (1 ≤ s.threshold → 1 ≤ s'.threshold) := by
  unfold doCall at h
  split_ifs at h
  · exact dispatchSelf_fields h
  · injection h with h
    subst h
    exact ⟨rfl, rfl, rfl, fun h => h⟩

theorem executeTransaction_inv {now : Nat} {ext : Bool} {txId : Nat}
    {s s' : MState} (h : Inv s)
    (hok : executeTransaction now ext txId s = .ok s') : Inv s' := by
  unfold executeTransaction at hok
  split_ifs at hok
  revert hok
  split
  · rename_i s2 heq
    intro hok
    injection hok with hok
    subst hok
    have h1 : Inv (setTxn s txId { getTxn s txId with executed := true }) :=
      Inv_setTxn h (TxOK_mark_executed (TxOK_getTxn h txId) true)
    obtain ⟨f1, f2, _, f4⟩ := doCall_fields heq
    exact ⟨by rw [f2, f1]; exact h1.1, f4 h1.2.1, by rw [f1]; exact h1.2.2⟩
  · intro hok
    cases hok

theorem approveTransaction_inv {sender : Addr} {now txId : Nat} {s s' : MState}
    (h : Inv s) (hok : approveTransaction sender now txId s = .ok s') : Inv s' := by
  unfold approveTransaction at hok
  split_ifs at hok
  exact approveCore_inv h hok

theorem deposit_inv {amount : Nat} {s s' : MState}
    (h : Inv s) (hok : deposit amount s = .ok s') : Inv s' := by
  unfold deposit at hok
  split_ifs at hok
  injection hok with hok
  subst hok
  exact h

theorem submitAddSigner_inv {sender : Addr} {now : Nat} {a : Addr}
    {s : MState} {r : Nat × MState} (h : Inv s)
    (hok : submitAddSigner sender now a s = .ok r) : Inv r.2 := by
  unfold submitAddSigner at hok
  split_ifs at hok
  exact submitTransaction_inv h hok

theorem submitRemoveSigner_inv {sender : Addr} {now : Nat} {a : Addr}
    {s : MState} {r : Nat × MState} (h : Inv s)
    (hok : submitRemoveSigner sender now a s = .ok r) : Inv r.2 := by
  unfold submitRemoveSigner at hok
  split_ifs at hok
  exact submitTransaction_inv h hok

theorem submitChangeThreshold_inv {sender : Addr} {now n : Nat}
    {s : MState} {r : Nat × MState} (h : Inv s)
    (hok : submitChangeThreshold sender now n s = .ok r) : Inv r.2 := by
  unfold submitChangeThreshold at hok
  split_ifs at hok
  exact submitTransaction_inv h hok

theorem submitWithdraw_inv {sender : Addr} {now : Nat} {recipient : Addr}
    {amount : Nat} {s : MState} {r : Nat × MState} (h : Inv s)
    (hok : submitWithdraw sender now recipient amount s = .ok r) : Inv r.2 := by
  unfold submitWithdraw at hok
  split_ifs at hok
  exact submitTransaction_inv h hok

theorem votePause_inv {sender : Addr} {s s' : MState}
    (h : Inv s) (hok : votePause sender s = .ok s') : Inv s' := by
  simp only [votePause] at hok
  split_ifs at hok <;>
    · injection hok with hok
      subst hok
      exact h

theorem voteUnpause_inv {sender : Addr} {s s' : MState}
    (h : Inv s) (hok : voteUnpause sender s = .ok s') : Inv s' := by
  simp only [voteUnpause] at hok
  split_ifs at hok <;>
    · injection hok with hok
      subst hok
      exact h

/-- Every single successful externally submitted call preserves the
bookkeeping invariant. -/
theorem run_inv {a : Act} {s s' : MState}
    (h : Inv s) (hok : run a s = .ok s') : Inv s' := by
  cases a <;> simp only [run] at hok
  case depositA => exact deposit_inv h hok
  case submitA =>
    revert hok
    split
    · rename_i r heq
      intro hok
      injection hok with hok
      subst hok
      exact submitTransaction_inv h heq
    · intro hok
      cases hok
  case submitBatchA =>
    revert hok
    split
    · rename_i r heq
      intro hok
      injection hok with hok
      subst hok
      exact submitBatchPayment_inv h heq
    · intro hok
      cases hok
  case approveA => exact approveTransaction_inv h hok
  case revokeA => exact revokeApproval_inv h hok
  case cancelA => exact cancelTransaction_inv h hok
  case executeA => exact executeTransaction_inv h hok
  case expireA => exact expireTransaction_inv h hok
  case submitAddSignerA =>
    revert hok
    split
    · rename_i r heq
      intro hok
      injection hok with hok
      subst hok
      exact submitAddSigner_inv h heq
    · intro hok
      cases hok
  case submitRemoveSignerA =>
    revert hok
    split
    · rename_i r heq
      intro hok
      injection hok with hok
      subst hok
      exact submitRemoveSigner_inv h heq
    · intro hok
      cases hok
  case submitChangeThresholdA =>
    revert hok
    split
    · rename_i r heq
      intro hok
      injection hok with hok
      subst hok
      exact submitChangeThreshold_inv h heq
    · intro hok
      cases hok
  case submitWithdrawA =>
    revert hok
    split
    · rename_i r heq
      intro hok
      injection hok with hok
      subst hok
      exact submitWithdraw_inv h heq
    · intro hok
      cases hok
  case votePauseA => exact votePause_inv h hok
  case voteUnpauseA => exact voteUnpause_inv h hok
  case receiveA =>
    injection hok with hok
    subst hok
    exact h

theorem ctorAddSigners_fields : ∀ (l : List Addr) (s s' : MState),
    ctorAddSigners l s = .ok s' →
    s'.transactions = s.transactions ∧ s'.nonce = s.nonce ∧
      s'.threshold = s.threshold
  | [], s, s', h => by
    unfold ctorAddSigners at h
    injection h with h
    subst h
    exact ⟨rfl, rfl, rfl⟩
  | a :: rest, s, s', h => by
    unfold ctorAddSigners at h
    split_ifs at h
    obtain ⟨h1, h2, h3⟩ := ctorAddSigners_fields rest _ s' h
    exact ⟨h1, h2, h3⟩

/-- A valid constructor call establishes the bookkeeping invariant. -/
theorem ctor_inv {initialSigners : List Addr} {thr : Nat} {s : MState}
    (h : ctor initialSigners thr = .ok s) : Inv s := by
  unfold ctor at h
  split_ifs at h with h1 h2
  revert h
  split
  · intro h
    cases h
  · rename_i s0 heq
    intro h
    injection h with h
    subst h
    obtain ⟨f1, f2, _⟩ := ctorAddSigners_fields _ _ _ heq
    refine ⟨?_, h2.1, ?_⟩
    · simpa [emptyState] using f2.trans (f1.symm ▸ rfl)
    · intro t ht
      rw [f1] at ht
      cases ht

/-- The bookkeeping invariant holds in every reachable state. -/
theorem reachable_inv {s : MState} (h : Reachable s) : Inv s := by
  induction h with
  | init initialSigners thr s hctor => exact ctor_inv hctor
  | step a s s' _ hok ih => exact run_inv ih hok

/-! ### Records keep their value under the operations that do not target them -/

theorem applyCall_of_not_ok {s : MState} {r : Except String MState}
    (h : r.isOk = false) : applyCall s r = s := by
  cases r with
  | ok s2 => cases h
  | error e => rfl

theorem finalized_lt {s : MState} {i : Nat}
    (hfin : (getTxn s i).executed = true ∨ (getTxn s i).cancelled = true) :
    i < s.transactions.length := by
  by_contra hi
  rw [getTxn_of_ge (Nat.le_of_not_lt hi)] at hfin
  cases hfin with
  | inl h => cases h
  | inr h => cases h

theorem getTxn_createTx {now : Nat} {target : Addr} {value : Nat}
    {data : Payload} {s : MState} {i : Nat} (h : i < s.transactions.length) :
    getTxn (createTx now target value data s).2 i = getTxn s i := by
  unfold getTxn createTx
  exact List.getD_append _ _ _ _ h

theorem approveCore_getTxn_ne {sender : Addr} {txId : Nat} {s s' : MState}
    {i : Nat} (hok : approveCore sender txId s = .ok s') (h : i ≠ txId) :
    getTxn s' i = getTxn s i := by
  unfold approveCore at hok
  split_ifs at hok
  injection hok with hok
  subst hok
  exact getTxn_setTxn_ne h

theorem submitTransaction_getTxn {sender : Addr} {now : Nat} {target : Addr}
    {value : Nat} {data : Payload} {s : MState} {r : Nat × MState} {i : Nat}
    (hn : s.nonce = s.transactions.length)
    (hok : submitTransaction sender now target value data s = .ok r)
    (hi : i < s.transactions.length) : getTxn r.2 i = getTxn s i := by
  unfold submitTransaction at hok
  split_ifs at hok
  revert hok
  split
  · intro hok
    cases hok
  · rename_i s2 heq
    intro hok
    injection hok with hok
    subst hok
    rw [approveCore_getTxn_ne heq (by omega), getTxn_createTx hi]

theorem submitBatchPayment_getTxn {sender : Addr} {now : Nat}
    {recipients : List Addr} {amounts : List Nat} {s : MState}
    {r : Nat × MState} {i : Nat} (hn : s.nonce = s.transactions.length)
    (hok : submitBatchPayment sender now recipients amounts s = .ok r)
    (hi : i < s.transactions.length) : getTxn r.2 i = getTxn s i := by
  unfold submitBatchPayment at hok
  split_ifs at hok
  revert hok
  split
  · intro hok
    cases hok
  · intro hok
    split_ifs at hok
    revert hok
    split
    · intro hok
      cases hok
    · rename_i s2 heq
      intro hok
      injection hok with hok
      subst hok
      rw [approveCore_getTxn_ne heq (by omega), getTxn_createTx hi]

theorem getTxn_eq_of_transactions {s s' : MState}
    (h : s'.transactions = s.transactions) (i : Nat) :
    getTxn s' i = getTxn s i := by
  unfold getTxn
  rw [h]

/-- Claim C5: once a transaction record's `executed` flag or `cancelled`
flag is true, no subsequent successful operation changes any field of
that record (target, value, payload, flags, approval count, timestamps,
or any approval-ledger entry).  `hn` is the id-allocation invariant that
holds in every state the contract builds (see `reachable_inv`). -/
theorem finalized_record_immutable (a : Act) (s s' : MState) (i : Nat)
    (hn : s.nonce = s.transactions.length)
    (hok : run a s = .ok s')
    (hfin : (getTxn s i).executed = true ∨ (getTxn s i).cancelled = true) :
    getTxn s' i = getTxn s i := by
  have hi : i < s.transactions.length := finalized_lt hfin
  cases a <;> simp only [run] at hok
  case depositA =>
    unfold deposit at hok
    split_ifs at hok
    injection hok with hok
    subst hok
    rfl
  case submitA =>
    revert hok
    split
    · rename_i r heq
      intro hok
      injection hok with hok
      subst hok
      exact submitTransaction_getTxn hn heq hi
    · intro hok
      cases hok
  case submitBatchA =>
    revert hok
    split
    · rename_i r heq
      intro hok
      injection hok with hok
      subst hok
      exact submitBatchPayment_getTxn hn heq hi
    · intro hok
      cases hok
  case approveA sender now txId =>
    unfold approveTransaction at hok
    split_ifs at hok with h1 h2 h3 h4 h5
    have hne : i ≠ txId := by
      intro heq
      exact h4 (heq ▸ hfin)
    exact approveCore_getTxn_ne hok hne
  case revokeA sender now txId =>
    unfold revokeApproval at hok
    split_ifs at hok with h1 h2 h3 h4 h5 h6 h7
    injection hok with hok
    subst hok
    refine getTxn_setTxn_ne ?_
    intro heq
    exact h4 (heq ▸ hfin)
  case cancelA sender now txId =>
    unfold cancelTransaction at hok
    split_ifs at hok with h1 h2 h3 h4 h5
    injection hok with hok
    subst hok
    refine getTxn_setTxn_ne ?_
    intro heq
    exact h4 (heq ▸ hfin)
  case executeA now ext txId =>
    unfold executeTransaction at hok
    split_ifs at hok with h1 h2 h3 h4 h5
    have hne : i ≠ txId := by
      intro heq
      exact h3 (heq ▸ hfin)
    revert hok
    split
    · rename_i s2 heq
      intro hok
      injection hok with hok
      subst hok
      rw [getTxn_eq_of_transactions (doCall_fields heq).1 i]
      exact getTxn_setTxn_ne hne
    · intro hok
      cases hok
  case expireA now txId =>
    unfold expireTransaction at hok
    split_ifs at hok with h1 h2 h3
    injection hok with hok
    subst hok
    refine getTxn_setTxn_ne ?_
    intro heq
    exact h2 (heq ▸ hfin)
  case submitAddSignerA =>
    revert hok
    split
    · rename_i r heq
      intro hok
      injection hok with hok
      subst hok
      unfold submitAddSigner at heq
      split_ifs at heq
      exact submitTransaction_getTxn hn heq hi
    · intro hok
      cases hok
  case submitRemoveSignerA =>
    revert hok
    split
    · rename_i r heq
      intro hok
      injection hok with hok
      subst hok
      unfold submitRemoveSigner at heq
      split_ifs at heq
      exact submitTransaction_getTxn hn heq hi
    · intro hok
      cases hok
  case submitChangeThresholdA =>
    revert hok
    split
    · rename_i r heq
      intro hok
      injection hok with hok
      subst hok
      unfold submitChangeThreshold at heq
      split_ifs at heq
      exact submitTransaction_getTxn hn heq hi
    · intro hok
      cases hok
  case submitWithdrawA =>
    revert hok
    split
    · rename_i r heq
      intro hok
      injection hok with hok
      subst hok
      unfold submitWithdraw at heq
      split_ifs at heq
      exact submitTransaction_getTxn hn heq hi
    · intro hok
      cases hok
  case votePauseA =>
    simp only [votePause] at hok
    split_ifs at hok <;>
      · injection hok with hok
        subst hok
        rfl
  case voteUnpauseA =>
    simp only [voteUnpause] at hok
    split_ifs at hok <;>
      · injection hok with hok
        subst hok
        rfl
  case receiveA =>
    injection hok with hok
    subst hok
    rfl

/-- Claim C2 (amended): execution succeeds if and only if the record has
reached quorum, is unexpired (boundary timestamp `now = expiresAt`
included), is unfinalized, the contract is unpaused, AND the forwarded
call — made from the state in which the record is already marked
executed — succeeds.  The hypotheses are the two global invariants
established by `reachable_inv`; no existence condition is needed because
an unassigned id reads as the zero record, which fails quorum for every
positive threshold. -/
theorem execute_success_iff (now : Nat) (ext : Bool) (txId : Nat) (s : MState)
    (hthr : 1 ≤ s.threshold) (hn : s.nonce = s.transactions.length) :
    (executeTransaction now ext txId s).isOk = true ↔
      (s.threshold ≤ (getTxn s txId).approvalCount ∧
       now ≤ (getTxn s txId).expiresAt ∧
       (getTxn s txId).executed = false ∧
       (getTxn s txId).cancelled = false ∧
       s.paused = false ∧
       (doCall ext (getTxn s txId).target (getTxn s txId).value
          (getTxn s txId).data
          (setTxn s txId { getTxn s txId with executed := true })).isOk = true) := by
  unfold executeTransaction
  by_cases h1 : s.paused = true
  · rw [if_pos h1]
    simp [Except.isOk, Except.toBool, h1]
  · rw [if_neg h1]
    have hps : s.paused = false := by simpa using h1
    by_cases h2 : txExists s txId
    · rw [if_neg (not_not_intro h2)]
      by_cases h3 : (getTxn s txId).executed = true ∨ (getTxn s txId).cancelled = true
      · rw [if_pos h3]
        simp only [Except.isOk, Except.toBool]
        constructor
        · intro h
          cases h
        · rintro ⟨_, _, hex, hca, _⟩
          rcases h3 with h3 | h3
          · rw [hex] at h3
            cases h3
          · rw [hca] at h3
            cases h3
      · rw [if_neg h3]
        have hex : (getTxn s txId).executed = false := by
          by_contra hc
          exact h3 (Or.inl (by simpa using hc))
        have hca : (getTxn s txId).cancelled = false := by
          by_contra hc
          exact h3 (Or.inr (by simpa using hc))
        by_cases h4 : now ≤ (getTxn s txId).expiresAt
        · rw [if_neg (not_not_intro h4)]
          by_cases h5 : (getTxn s txId).approvalCount < s.threshold
          · rw [if_pos h5]
            simp only [Except.isOk, Except.toBool]
            constructor
            · intro h
              cases h
            · rintro ⟨hc, _⟩
              omega
          · rw [if_neg h5]
            have hq : s.threshold ≤ (getTxn s txId).approvalCount := by omega
            cases hdc : doCall ext (getTxn s txId).target (getTxn s txId).value
                (getTxn s txId).data
                (setTxn s txId { getTxn s txId with executed := true }) with
            | ok s2 => simp [Except.isOk, Except.toBool, hq, h4, hex, hca, hps]
            | error e => simp [Except.isOk, Except.toBool]
        · rw [if_pos h4]
          simp only [Except.isOk, Except.toBool]
          constructor
          · intro h
            cases h
          · rintro ⟨_, hnow, _⟩
            exact absurd hnow h4
    · rw [if_pos h2]
      have h0 : getTxn s txId = txn0 := by
        refine getTxn_of_ge ?_
        unfold txExists at h2
        omega
      rw [h0]
      simp only [Except.isOk, Except.toBool]
      constructor
      · intro h
        cases h
      · rintro ⟨hc, _⟩
        rw [show txn0.approvalCount = 0 from rfl] at hc
        omega

/-- Claim C3: if the forwarded call of `executeTransaction` fails, the
whole execute call fails and — by revert semantics (`applyCall`) — the
contract state after the failed call is the state before it, so the
`executed` mark taken just before forwarding is rolled back; and a later
execute attempt on the same id can still succeed: whenever the guards
hold and the forwarded call then goes through, execution returns ok. -/
theorem execute_failure_rollback (s : MState) (now now2 : Nat)
    (ext ext2 : Bool) (txId : Nat) (e : String) (s2 : MState)
    (hfail : doCall ext (getTxn s txId).target (getTxn s txId).value
      (getTxn s txId).data
      (setTxn s txId { getTxn s txId with executed := true }) = .error e) :
    (executeTransaction now ext txId s).isOk = false ∧
    applyCall s (executeTransaction now ext txId s) = s ∧
    (getTxn (applyCall s (executeTransaction now ext txId s)) txId).executed =
      (getTxn s txId).executed ∧
    (s.paused = false → txExists s txId →
      (getTxn s txId).executed = false → (getTxn s txId).cancelled = false →
      now2 ≤ (getTxn s txId).expiresAt →
      s.threshold ≤ (getTxn s txId).approvalCount →
      doCall ext2 (getTxn s txId).target (getTxn s txId).value
        (getTxn s txId).data
        (setTxn s txId { getTxn s txId with executed := true }) = .ok s2 →
      executeTransaction now2 ext2 txId s = .ok s2) := by
  have hfst : (executeTransaction now ext txId s).isOk = false := by
    unfold executeTransaction
    split_ifs <;> try rfl
    rw [hfail]
    rfl
  refine ⟨hfst, applyCall_of_not_ok hfst, by rw [applyCall_of_not_ok hfst], ?_⟩
  intro hps hex hexec hcanc hnow hq hok2
  unfold executeTransaction
  rw [if_neg (by simp [hps]), if_neg (not_not_intro hex),
      if_neg (by simp [hexec, hcanc]), if_neg (not_not_intro hnow),
      if_neg (by omega), hok2]

/-- Claim C4 (amended): while `paused`, every entry point carrying the
`notPaused` guard — deposit, the four proposal submitters, generic and
batch submission, approve, revoke, cancel, and execute — is rejected
with the contract-paused error, and rejection is a revert, so the state
is unchanged (`applyCall` keeps it); the pause vote itself is rejected
with an already-paused error.  (The expiry entry point and the plain
value-receive fallback are NOT gated and stay callable while paused —
see the counterexample.)  `hs` restricts to signer callers, since the
signer gate is checked before the pause gate. -/
theorem paused_rejects_mutators (s : MState) (sender target recipient : Addr)
    (now value amount txId n : Nat) (data : Payload) (ext : Bool)
    (recipients : List Addr) (amounts : List Nat)
    (hp : s.paused = true) (hs : sender ∈ s.isSigner) :
    deposit amount s = .error "NRM: Contract paused" ∧
    submitTransaction sender now target value data s = .error "NRM: Contract paused" ∧
    submitBatchPayment sender now recipients amounts s = .error "NRM: Contract paused" ∧
    approveTransaction sender now txId s = .error "NRM: Contract paused" ∧
    revokeApproval sender now txId s = .error "NRM: Contract paused" ∧
    cancelTransaction sender now txId s = .error "NRM: Contract paused" ∧
    executeTransaction now ext txId s = .error "NRM: Contract paused" ∧
    submitAddSigner sender now target s = .error "NRM: Contract paused" ∧
    submitRemoveSigner sender now target s = .error "NRM: Contract paused" ∧
    submitChangeThreshold sender now n s = .error "NRM: Contract paused" ∧
    submitWithdraw sender now recipient amount s = .error "NRM: Contract paused" ∧
    votePause sender s = .error "NRM: Already paused" ∧
    (∀ msg : String, applyCall s (.error msg) = s) := by
  refine ⟨?_, ?_, ?_, ?_, ?_, ?_, ?_, ?_, ?_, ?_, ?_, ?_, fun _ => rfl⟩
  · simp [deposit, hp]
  · simp [submitTransaction, hp, hs]
  · simp [submitBatchPayment, hp, hs]
  · simp [approveTransaction, hp, hs]
  · simp [revokeApproval, hp, hs]
  · simp [cancelTransaction, hp, hs]
  · simp [executeTransaction, hp]
  · simp [submitAddSigner, hp, hs]
  · simp [submitRemoveSigner, hp, hs]
  · simp [submitChangeThreshold, hp, hs]
  · simp [submitWithdraw, hp, hs]
  · simp [votePause, hp, hs]

theorem validateBatch_spec : ∀ (rs : List Addr) (amts : List Nat),
    ((validateBatch rs amts).isOk = true ↔
      (rs.length = amts.length ∧ (∀ r ∈ rs, r ≠ 0) ∧ ∀ x ∈ amts, 0 < x)) ∧
    (∀ total, validateBatch rs amts = .ok total → total = amts.sum)
  | [], [] => by
    constructor
    · simp [validateBatch, Except.isOk, Except.toBool]
    · intro total h
      injection h with h
      subst h
      rfl
  | [], amt :: amts => by
    constructor
    · simp [validateBatch, Except.isOk, Except.toBool]
    · intro total h
      cases h
  | r :: rs, [] => by
    constructor
    · simp [validateBatch, Except.isOk, Except.toBool]
    · intro total h
      cases h
  | r :: rs, amt :: amts => by
    obtain ⟨ih1, ih2⟩ := validateBatch_spec rs amts
    constructor
    · unfold validateBatch
      split_ifs with hr hamt
      · subst hr
        simp [Except.isOk, Except.toBool]
      · simp only [Except.isOk, Except.toBool]
        constructor
        · intro h
          cases h
        · rintro ⟨_, _, hx⟩
          have h0 := hx amt (List.mem_cons_self _ _)
          omega
      · cases hv : validateBatch rs amts with
        | ok total =>
          dsimp only
          simp only [Except.isOk, Except.toBool]
          constructor
          · intro _
            obtain ⟨hl, ha, hx⟩ := ih1.mp (by simp [hv, Except.isOk, Except.toBool])
            refine ⟨by simpa using hl, ?_, ?_⟩
            · intro b hb
              rcases List.mem_cons.mp hb with rfl | hb2
              · exact hr
              · exact ha b hb2
            · intro x hx2
              rcases List.mem_cons.mp hx2 with rfl | hx3
              · omega
              · exact hx x hx3
          · intro _
            trivial
        | error e =>
          dsimp only
          simp only [Except.isOk, Except.toBool]
          constructor
          · intro h
            cases h
          · rintro ⟨hl, ha, hx⟩
            have hvo : (validateBatch rs amts).isOk = true := by
              refine ih1.mpr ⟨by simpa using hl, ?_, ?_⟩
              · intro b hb
                exact ha b (List.mem_cons_of_mem _ hb)
              · intro x hx2
                exact hx x (List.mem_cons_of_mem _ hx2)
            rw [hv] at hvo
            cases hvo
    · intro total h
      unfold validateBatch at h
      split_ifs at h
      revert h
      cases hv : validateBatch rs amts with
      | ok t2 =>
        intro h
        injection h with h
        subst h
        rw [ih2 t2 hv]
        simp [List.sum_cons]
      | error e =>
        intro h
        cases h

theorem run_submitBatch_isOk (sender : Addr) (now : Nat)
    (recipients : List Addr) (amounts : List Nat) (s : MState) :
    (run (Act.submitBatchA sender now recipients amounts) s).isOk =
      (submitBatchPayment sender now recipients amounts s).isOk := by
  simp only [run]
  cases h : submitBatchPayment sender now recipients amounts s <;> rfl

/-- The state produced by `_createTransaction` followed by the
submitter's auto-approval, under the id-allocation invariant: the fresh
record sits at id `nonce`, carries exactly the submitter's approval, and
the counter advances by one. -/
theorem submit_fresh (s : MState) (hn : s.nonce = s.transactions.length)
    (sender : Addr) (now : Nat) (target : Addr) (value : Nat) (data : Payload) :
    approveCore sender s.nonce (createTx now target value data s).2 =
      .ok (setTxn (createTx now target value data s).2 s.nonce
        { target := target, value := value, data := data, executed := false,
          cancelled := false, approvalCount := 1, submittedAt := now,
          expiresAt := now + TRANSACTION_EXPIRY, approvals := [sender] }) := by
  have hget : getTxn (createTx now target value data s).2 s.nonce =
      { target := target, value := value, data := data, executed := false,
        cancelled := false, approvalCount := 0, submittedAt := now,
        expiresAt := now + TRANSACTION_EXPIRY, approvals := [] } := by
    unfold getTxn createTx
    rw [hn]
    rw [List.getD_append_right _ _ _ _ (le_refl _)]
    simp
  unfold approveCore
  rw [hget]
  rw [if_neg (by simp)]
  simp [msetTrue]

/-- Claim C8: batch-payment submission succeeds exactly when the two
lists have equal length, the length is between 1 and the hard cap 100,
every recipient is non-null, every amount is positive, and the pooled
token balance covers the sum; on failure nothing is created (a revert
keeps the state), and on success the new record is self-targeted with
the batch-transfer encoding of the same lists, auto-approved by the
submitter. -/
theorem submitBatch_spec (sender : Addr) (now : Nat) (recipients : List Addr)
    (amounts : List Nat) (s : MState)
    (hs : sender ∈ s.isSigner) (hp : s.paused = false)
    (hn : s.nonce = s.transactions.length) :
    ((submitBatchPayment sender now recipients amounts s).isOk = true ↔
      (recipients.length = amounts.length ∧ 0 < recipients.length ∧
       recipients.length ≤ MAX_BATCH_SIZE ∧ (∀ r ∈ recipients, r ≠ 0) ∧
       (∀ x ∈ amounts, 0 < x) ∧ amounts.sum ≤ s.balance)) ∧
    (∀ r : Nat × MState, submitBatchPayment sender now recipients amounts s = .ok r →
      r.1 = s.nonce ∧ r.2.nonce = s.nonce + 1 ∧
      getTxn r.2 r.1 =
        { target := SELF, value := 0,
          data := .batchTransferCall recipients amounts, executed := false,
          cancelled := false, approvalCount := 1, submittedAt := now,
          expiresAt := now + TRANSACTION_EXPIRY, approvals := [sender] }) ∧
    ((submitBatchPayment sender now recipients amounts s).isOk = false →
      applyCall s (run (Act.submitBatchA sender now recipients amounts) s) = s) := by
  refine ⟨?_, ?_, ?_⟩
  · unfold submitBatchPayment
    rw [if_neg (by simp [hs]), if_neg (by simp [hp])]
    by_cases hlen : recipients.length ≠ amounts.length
    · rw [if_pos hlen]
      simp only [Except.isOk, Except.toBool]
      constructor
      · intro h
        cases h
      · rintro ⟨hl, _⟩
        exact absurd hl hlen
    · rw [if_neg hlen]
      have hlen' : recipients.length = amounts.length := by
        by_contra hc
        exact hlen hc
      by_cases hsz : 0 < recipients.length ∧ recipients.length ≤ MAX_BATCH_SIZE
      · rw [if_neg (not_not_intro hsz)]
        obtain ⟨vb1, vb2⟩ := validateBatch_spec recipients amounts
        cases hv : validateBatch recipients amounts with
        | ok total =>
          have htot : total = amounts.sum := vb2 total hv
          subst htot
          dsimp only
          by_cases hbal : s.balance < amounts.sum
          · rw [if_pos hbal]
            simp only [Except.isOk, Except.toBool]
            constructor
            · intro h
              cases h
            · rintro ⟨_, _, _, _, _, hsum⟩
              omega
          · rw [if_neg hbal]
            rw [submit_fresh s hn sender now SELF 0 (.batchTransferCall recipients amounts)]
            simp only [Except.isOk, Except.toBool]
            constructor
            · intro _
              obtain ⟨_, ha, hx⟩ := vb1.mp (by simp [hv, Except.isOk, Except.toBool])
              exact ⟨hlen', hsz.1, hsz.2, ha, hx, by omega⟩
            · intro _
              trivial
        | error e =>
          dsimp only
          simp only [Except.isOk, Except.toBool]
          constructor
          · intro h
            cases h
          · rintro ⟨hl, _, _, ha, hx, _⟩
            have hvo : (validateBatch recipients amounts).isOk = true :=
              vb1.mpr ⟨hl, ha, hx⟩
            rw [hv] at hvo
            cases hvo
      · rw [if_pos hsz]
        simp only [Except.isOk, Except.toBool]
        constructor
        · intro h
          cases h
        · rintro ⟨_, hpos, hcap, _⟩
          exact (hsz ⟨hpos, hcap⟩).elim
  · intro r hok
    unfold submitBatchPayment at hok
    split_ifs at hok
    revert hok
    split
    · intro hok
      cases hok
    · rename_i total heq
      intro hok
      by_cases hbal : s.balance < total
      · rw [if_pos hbal] at hok
        cases hok
      · rw [if_neg hbal] at hok
        rw [submit_fresh s hn sender now SELF 0 (.batchTransferCall recipients amounts)] at hok
        dsimp only at hok
        injection hok with hok
        subst hok
        refine ⟨rfl, by simp [setTxn, createTx], ?_⟩
        refine getTxn_setTxn_self ?_
        simp [createTx, hn]
  · intro hbad
    rw [applyCall_of_not_ok (by rw [run_submitBatch_isOk, hbad])]

/-- Claim C9: for an existing, unfinalized transaction and a signer
caller (with the pause gate open), cancellation before expiry succeeds
exactly when the caller currently holds an approval on the record
(`hledger` is the ledger-count consistency from `reachable_inv`, which
makes the code's extra `approvalCount > 0` test redundant), after expiry
it succeeds unconditionally, and success only flips `cancelled`, leaving
`approvalCount` and every other field unchanged. -/
theorem cancel_spec (sender : Addr) (now txId : Nat) (s : MState)
    (hs : sender ∈ s.isSigner) (hp : s.paused = false)
    (hex : txExists s txId) (hn : s.nonce = s.transactions.length)
    (hexec : (getTxn s txId).executed = false)
    (hcanc : (getTxn s txId).cancelled = false)
    (hledger : (getTxn s txId).approvalCount = (getTxn s txId).approvals.length) :
    (now ≤ (getTxn s txId).expiresAt →
      ((cancelTransaction sender now txId s).isOk = true ↔
        sender ∈ (getTxn s txId).approvals)) ∧
    ((getTxn s txId).expiresAt < now →
      cancelTransaction sender now txId s =
        .ok (setTxn s txId { getTxn s txId with cancelled := true })) ∧
    (∀ s', cancelTransaction sender now txId s = .ok s' →
      s' = setTxn s txId { getTxn s txId with cancelled := true } ∧
      getTxn s' txId = { getTxn s txId with cancelled := true } ∧
      (getTxn s' txId).approvalCount = (getTxn s txId).approvalCount) := by
  have hguards : cancelTransaction sender now txId s =
      (if now ≤ (getTxn s txId).expiresAt ∧
          ¬ (sender ∈ (getTxn s txId).approvals ∧ 0 < (getTxn s txId).approvalCount) then
        .error "NRM: Only submitter can cancel"
      else .ok (setTxn s txId { getTxn s txId with cancelled := true })) := by
    unfold cancelTransaction
    rw [if_neg (by simp [hs]), if_neg (by simp [hp]),
        if_neg (not_not_intro hex), if_neg (by simp [hexec, hcanc])]
  refine ⟨?_, ?_, ?_⟩
  · intro hnow
    rw [hguards]
    by_cases hmem : sender ∈ (getTxn s txId).approvals
    · have hcount : 0 < (getTxn s txId).approvalCount := by
        rw [hledger]
        exact List.length_pos.mpr (List.ne_nil_of_mem hmem)
      rw [if_neg (by simp [hnow, hmem, hcount])]
      simp [Except.isOk, Except.toBool, hmem]
    · rw [if_pos ⟨hnow, by simp [hmem]⟩]
      simp [Except.isOk, Except.toBool, hmem]
  · intro hlate
    rw [hguards, if_neg (by simp; omega)]
  · intro s' hok
    rw [hguards] at hok
    split_ifs at hok
    injection hok with hok
    subst hok
    have hlt : txId < s.transactions.length := by
      unfold txExists at hex
      omega
    refine ⟨rfl, getTxn_setTxn_self hlt, ?_⟩
    rw [getTxn_setTxn_self hlt]

theorem run_submitRemoveSigner_isOk (sender : Addr) (now : Nat) (a : Addr)
    (s : MState) :
    (run (Act.submitRemoveSignerA sender now a) s).isOk =
      (submitRemoveSigner sender now a s).isOk := by
  simp only [run]
  cases h : submitRemoveSigner sender now a s <;> rfl

/-- Claim C10: a signer-removal proposal is rejected at submission time
— before any record is created, the revert keeping the state — whenever
`signers.length - 1 < threshold`; the privileged `removeSigner` mutator
itself performs no such check: it succeeds (for the self-caller) as soon
as the target is a signer and is not the last one, whatever the
threshold.  `hpv` only rules out the counter underflow that a
vote-count/ledger mismatch would cause, and holds in honest states. -/
theorem removeSigner_threshold_check (s : MState) (sender a : Addr) (now : Nat)
    (hpv : a ∈ s.pauseVoters → s.pauseVotes ≠ 0) :
    (s.signers.length - 1 < s.threshold →
      (submitRemoveSigner sender now a s).isOk = false ∧
      applyCall s (run (Act.submitRemoveSignerA sender now a) s) = s) ∧
    (a ∈ s.isSigner → 1 < s.signers.length →
      (removeSigner SELF a s).isOk = true) := by
  constructor
  · intro hthr
    have hbad : (submitRemoveSigner sender now a s).isOk = false := by
      unfold submitRemoveSigner
      by_cases h1 : sender ∉ s.isSigner
      · rw [if_pos h1]
        rfl
      · rw [if_neg h1]
        by_cases h2 : s.paused = true
        · rw [if_pos h2]
          rfl
        · rw [if_neg h2]
          by_cases h3 : a ∉ s.isSigner
          · rw [if_pos h3]
            rfl
          · rw [if_neg h3]
            by_cases h4 : 1 < s.signers.length
            · rw [if_neg (not_not_intro h4), if_pos hthr]
              rfl
            · rw [if_pos h4]
              rfl
    refine ⟨hbad, applyCall_of_not_ok ?_⟩
    rw [run_submitRemoveSigner_isOk, hbad]
  · intro ha hlen
    by_cases hsw : ilook s.signerIndex a ≠ s.signers.length - 1 <;>
      by_cases hv : a ∈ s.pauseVoters
    · simp [removeSigner, ha, hlen, hsw, hv, hpv hv, Except.isOk, Except.toBool]
    · simp [removeSigner, ha, hlen, hsw, hv, Except.isOk, Except.toBool]
    · simp [removeSigner, ha, hlen, hsw, hv, hpv hv, Except.isOk, Except.toBool]
    · simp [removeSigner, ha, hlen, hsw, hv, Except.isOk, Except.toBool]

theorem mem_foldl_msetFalse : ∀ (l : List Addr) (m : List Addr) (b : Addr),
    b ∈ l.foldl msetFalse m → b ∈ m
  | [], _, _, h => h
  | c :: l', m, b, h =>
    List.mem_of_mem_erase (mem_foldl_msetFalse l' (msetFalse m c) b h)

theorem not_mem_foldl_msetFalse : ∀ (l : List Addr) (m : List Addr) (b : Addr),
    m.Nodup → b ∈ l → b ∉ l.foldl msetFalse m
  | [], _, _, _, hb => absurd hb (List.not_mem_nil _)
  | c :: l', m, b, hnd, hb => by
    simp only [List.foldl_cons]
    by_cases hbc : b = c
    · subst hbc
      intro hmem
      exact hnd.not_mem_erase (mem_foldl_msetFalse l' (msetFalse m b) b hmem)
    · refine not_mem_foldl_msetFalse l' (msetFalse m c) b (nodup_msetFalse hnd) ?_
      rcases List.mem_cons.mp hb with h | h
      · exact absurd h hbc
      · exact h

/-- Claim C7 (amended): the pause/unpause voting protocol.  A pause vote
by a signer fails when already paused or when the caller already voted;
otherwise it records the vote, increments the counter, and sets `paused`
exactly when the new counter reaches the majority bound
`signers.length / 2 + 1`.  An unpause vote fails unless the contract is
currently paused AND the caller previously voted; otherwise it clears
the caller's vote and decrements the counter, and when the decremented
counter is below the majority bound it clears `paused`, zeroes the
counter, and resets every signer's vote flag.  `hnd`/`hpv` are the
vote-ledger consistency facts of honest states (they rule out the
decrement underflow). -/
theorem pause_vote_spec (sender : Addr) (s : MState)
    (hs : sender ∈ s.isSigner) (hnd : s.pauseVoters.Nodup)
    (hpv : s.pauseVotes = s.pauseVoters.length) :
    (s.paused = true → votePause sender s = .error "NRM: Already paused") ∧
    (s.paused = false → sender ∈ s.pauseVoters →
      votePause sender s = .error "NRM: Already voted to pause") ∧
    (s.paused = false → sender ∉ s.pauseVoters →
      (votePause sender s).isOk = true) ∧
    (s.paused = false → sender ∉ s.pauseVoters → ∀ s',
      votePause sender s = .ok s' →
      s'.pauseVoters = msetTrue s.pauseVoters sender ∧
      s'.pauseVotes = s.pauseVotes + 1 ∧
      (s'.paused = true ↔ s.signers.length / 2 + 1 ≤ s.pauseVotes + 1)) ∧
    (s.paused = false → voteUnpause sender s = .error "NRM: Not paused") ∧
    (s.paused = true → sender ∉ s.pauseVoters →
      voteUnpause sender s = .error "NRM: Must have voted to pause first") ∧
    (s.paused = true → sender ∈ s.pauseVoters →
      (voteUnpause sender s).isOk = true) ∧
    (s.paused = true → sender ∈ s.pauseVoters → ∀ s',
      voteUnpause sender s = .ok s' →
      sender ∉ s'.pauseVoters ∧
      (s.signers.length / 2 + 1 ≤ s.pauseVotes - 1 →
        s'.paused = true ∧ s'.pauseVotes = s.pauseVotes - 1 ∧
        s'.pauseVoters = msetFalse s.pauseVoters sender) ∧
      (s.pauseVotes - 1 < s.signers.length / 2 + 1 →
        s'.paused = false ∧ s'.pauseVotes = 0 ∧
        ∀ b ∈ s.signers, b ∉ s'.pauseVoters)) := by
  refine ⟨?_, ?_, ?_, ?_, ?_, ?_, ?_, ?_⟩
  · intro hp
    simp [votePause, hs, hp]
  · intro hp hv
    simp [votePause, hs, hp, hv]
  · intro hp hv
    simp only [votePause]
    rw [if_neg (by simp [hs]), if_neg (by simp [hp]), if_neg (by simp [hv])]
    split_ifs <;> rfl
  · intro hp hv s' hok
    simp only [votePause] at hok
    rw [if_neg (by simp [hs]), if_neg (by simp [hp]),
        if_neg (by simp [hv])] at hok
    by_cases hb : s.signers.length / 2 + 1 ≤ s.pauseVotes + 1
    · rw [if_pos hb] at hok
      injection hok with hok
      subst hok
      exact ⟨rfl, rfl, by simp [hb]⟩
    · rw [if_neg hb] at hok
      injection hok with hok
      subst hok
      exact ⟨rfl, rfl, by simp [hp, hb]⟩
  · intro hp
    simp [voteUnpause, hs, hp]
  · intro hp hv
    simp [voteUnpause, hs, hp, hv]
  · intro hp hv
    have hz : ¬ s.pauseVotes = 0 := by
      have hl : 0 < s.pauseVoters.length := List.length_pos.mpr (List.ne_nil_of_mem hv)
      omega
    simp only [voteUnpause]
    rw [if_neg (by simp [hs]), if_neg (by simp [hp]), if_neg (by simp [hv]),
        if_neg hz]
    split_ifs <;> rfl
  · intro hp hv s' hok
    have hz : ¬ s.pauseVotes = 0 := by
      have hl : 0 < s.pauseVoters.length := List.length_pos.mpr (List.ne_nil_of_mem hv)
      omega
    simp only [voteUnpause] at hok
    rw [if_neg (by simp [hs]), if_neg (by simp [hp]), if_neg (by simp [hv]),
        if_neg hz] at hok
    by_cases hb : s.pauseVotes - 1 < s.signers.length / 2 + 1
    · rw [if_pos hb] at hok
      injection hok with hok
      subst hok
      refine ⟨?_, ?_, ?_⟩
      · simp only [resetPauseVotes]
        intro hmem
        exact hnd.not_mem_erase (mem_foldl_msetFalse _ _ _ hmem)
      · intro hb2
        omega
      · intro _
        refine ⟨rfl, rfl, ?_⟩
        intro b hbmem
        simp only [resetPauseVotes]
        exact not_mem_foldl_msetFalse _ _ _ (nodup_msetFalse hnd) hbmem
    · rw [if_neg hb] at hok
      injection hok with hok
      subst hok
      refine ⟨hnd.not_mem_erase, ?_, ?_⟩
      · intro _
        exact ⟨hp, rfl, rfl⟩
      · intro hb2
        omega

/-! ### The swap-with-last-and-truncate step of `removeSigner`, on lists -/


theorem swapRemove_length (l : List Addr) (idx : Nat) :
    (swapRemove l idx).length = l.length - 1 := by
  unfold swapRemove
  split_ifs <;> simp

theorem swapRemove_getD (l : List Addr) (idx : Nat) (hidx : idx < l.length)
    (j : Nat) (hj : j < l.length - 1) :
    (swapRemove l idx).getD j 0 =
      if j = idx then l.getD (l.length - 1) 0 else l.getD j 0 := by
  have hj' : j < (swapRemove l idx).length := by
    rw [swapRemove_length]
    exact hj
  unfold swapRemove at hj' ⊢
  by_cases hsw : idx ≠ l.length - 1
  · rw [if_pos hsw] at hj' ⊢
    rw [List.getD_eq_getElem _ _ hj', List.getElem_dropLast]
    by_cases hji : j = idx
    · subst hji
      rw [if_pos rfl, List.getElem_set_self]
    · rw [if_neg hji, List.getElem_set_ne (fun h => hji h.symm)]
      exact (List.getD_eq_getElem _ _ (by omega)).symm
  · rw [if_neg hsw] at hj' ⊢
    have hji : ¬ j = idx := by omega
    rw [if_neg hji, List.getD_eq_getElem _ _ hj', List.getElem_dropLast]
    exact (List.getD_eq_getElem _ _ (by omega)).symm

theorem swapRemove_mem (l : List Addr) (idx : Nat) (hnd : l.Nodup)
    (hidx : idx < l.length) (b : Addr) :
    b ∈ swapRemove l idx ↔ (b ∈ l ∧ b ≠ l.getD idx 0) := by
  constructor
  · intro hb
    obtain ⟨j, hj, hbj⟩ := List.mem_iff_getElem.mp hb
    have hj' : j < l.length - 1 := by
      rw [swapRemove_length] at hj
      exact hj
    have hval : (swapRemove l idx).getD j 0 = b := by
      rw [List.getD_eq_getElem _ _ hj, hbj]
    rw [swapRemove_getD l idx hidx j hj'] at hval
    by_cases hji : j = idx
    · rw [if_pos hji] at hval
      constructor
      · rw [← hval, List.getD_eq_getElem _ _ (by omega : l.length - 1 < l.length)]
        exact List.getElem_mem _
      · rw [← hval]
        intro heq
        rw [List.getD_eq_getElem _ _ (by omega : l.length - 1 < l.length),
            List.getD_eq_getElem _ _ hidx] at heq
        have h2 := (hnd.getElem_inj_iff).mp heq
        omega
    · rw [if_neg hji] at hval
      constructor
      · rw [← hval, List.getD_eq_getElem _ _ (by omega : j < l.length)]
        exact List.getElem_mem _
      · rw [← hval]
        intro heq
        rw [List.getD_eq_getElem _ _ (by omega : j < l.length),
            List.getD_eq_getElem _ _ hidx] at heq
        exact hji ((hnd.getElem_inj_iff).mp heq)
  · rintro ⟨hbl, hba⟩
    obtain ⟨j, hj, hbj⟩ := List.mem_iff_getElem.mp hbl
    have hji : j ≠ idx := by
      intro h
      subst h
      exact hba (by rw [← hbj, List.getD_eq_getElem _ _ hidx])
    by_cases hlast : j = l.length - 1
    · have hidxlt : idx < l.length - 1 := by omega
      refine List.mem_iff_getElem.mpr ⟨idx, by rw [swapRemove_length]; omega, ?_⟩
      have hgd := swapRemove_getD l idx hidx idx hidxlt
      rw [if_pos rfl] at hgd
      rw [← List.getD_eq_getElem _ 0 (by rw [swapRemove_length]; omega), hgd,
          List.getD_eq_getElem _ _ (by omega : l.length - 1 < l.length), ← hbj]
      congr 1
      omega
    · have hjlt : j < l.length - 1 := by omega
      refine List.mem_iff_getElem.mpr ⟨j, by rw [swapRemove_length]; omega, ?_⟩
      have hgd := swapRemove_getD l idx hidx j hjlt
      rw [if_neg hji] at hgd
      rw [← List.getD_eq_getElem _ 0 (by rw [swapRemove_length]; omega), hgd,
          List.getD_eq_getElem _ _ (by omega : j < l.length)]
      exact hbj

theorem swapRemove_nodup (l : List Addr) (idx : Nat) (hnd : l.Nodup)
    (hidx : idx < l.length) : (swapRemove l idx).Nodup := by
  rw [List.nodup_iff_injective_getElem]
  rintro ⟨j1, h1⟩ ⟨j2, h2⟩ heq
  simp only at heq
  have h1' : j1 < l.length - 1 := by
    rw [swapRemove_length] at h1
    exact h1
  have h2' : j2 < l.length - 1 := by
    rw [swapRemove_length] at h2
    exact h2
  have hv : (swapRemove l idx).getD j1 0 = (swapRemove l idx).getD j2 0 := by
    rw [List.getD_eq_getElem _ _ h1, List.getD_eq_getElem _ _ h2, heq]
  rw [swapRemove_getD l idx hidx j1 h1', swapRemove_getD l idx hidx j2 h2'] at hv
  refine Fin.ext ?_
  show j1 = j2
  by_cases e1 : j1 = idx <;> by_cases e2 : j2 = idx
  · omega
  · rw [if_pos e1, if_neg e2] at hv
    rw [List.getD_eq_getElem _ _ (by omega : l.length - 1 < l.length),
        List.getD_eq_getElem _ _ (by omega : j2 < l.length)] at hv
    have h3 := (hnd.getElem_inj_iff).mp hv
    omega
  · rw [if_neg e1, if_pos e2] at hv
    rw [List.getD_eq_getElem _ _ (by omega : j1 < l.length),
        List.getD_eq_getElem _ _ (by omega : l.length - 1 < l.length)] at hv
    have h3 := (hnd.getElem_inj_iff).mp hv
    omega
  · rw [if_neg e1, if_neg e2] at hv
    rw [List.getD_eq_getElem _ _ (by omega : j1 < l.length),
        List.getD_eq_getElem _ _ (by omega : j2 < l.length)] at hv
    exact (hnd.getElem_inj_iff).mp hv

theorem removeSigner_shape {s : MState} {a : Addr} {s' : MState}
    (ha : a ∈ s.isSigner) (hok : removeSigner SELF a s = .ok s') :
    1 < s.signers.length ∧
    s'.signers = swapRemove s.signers (ilook s.signerIndex a) ∧
    s'.isSigner = msetFalse s.isSigner a ∧
    s'.signerIndex = idel
      (if ilook s.signerIndex a ≠ s.signers.length - 1 then
        iset s.signerIndex (s.signers.getD (s.signers.length - 1) 0)
          (ilook s.signerIndex a)
      else s.signerIndex) a ∧
    (a ∈ s.pauseVoters → s'.pauseVoters = msetFalse s.pauseVoters a ∧
      s'.pauseVotes = s.pauseVotes - 1) ∧
    (a ∉ s.pauseVoters → s'.pauseVoters = s.pauseVoters ∧
      s'.pauseVotes = s.pauseVotes) := by
  by_cases hlen : 1 < s.signers.length
  case neg =>
    simp [removeSigner, ha, hlen] at hok
  simp only [removeSigner] at hok
  rw [if_neg (by simp), if_neg (not_not_intro ha),
      if_neg (not_not_intro hlen)] at hok
  by_cases hsw : ilook s.signerIndex a ≠ s.signers.length - 1
  · rw [if_pos hsw] at hok
    by_cases hv : a ∈ s.pauseVoters
    · rw [if_pos hv] at hok
      by_cases hz : s.pauseVotes = 0
      · rw [if_pos hz] at hok
        cases hok
      · rw [if_neg hz] at hok
        injection hok with hok
        subst hok
        refine ⟨hlen, ?_, rfl, by rw [if_pos hsw], ?_, ?_⟩
        · unfold swapRemove
          rw [if_pos hsw]
        · intro _
          exact ⟨rfl, rfl⟩
        · intro hcon
          exact absurd hv hcon
    · rw [if_neg hv] at hok
      injection hok with hok
      subst hok
      refine ⟨hlen, ?_, rfl, by rw [if_pos hsw], ?_, ?_⟩
      · unfold swapRemove
        rw [if_pos hsw]
      · intro hcon
        exact absurd hcon hv
      · intro _
        exact ⟨rfl, rfl⟩
  · rw [if_neg hsw] at hok
    by_cases hv : a ∈ s.pauseVoters
    · rw [if_pos hv] at hok
      by_cases hz : s.pauseVotes = 0
      · rw [if_pos hz] at hok
        cases hok
      · rw [if_neg hz] at hok
        injection hok with hok
        subst hok
        refine ⟨hlen, ?_, rfl, by rw [if_neg hsw], ?_, ?_⟩
        · unfold swapRemove
          rw [if_neg hsw]
        · intro _
          exact ⟨rfl, rfl⟩
        · intro hcon
          exact absurd hv hcon
    · rw [if_neg hv] at hok
      injection hok with hok
      subst hok
      refine ⟨hlen, ?_, rfl, by rw [if_neg hsw], ?_, ?_⟩
      · unfold swapRemove
        rw [if_neg hsw]
      · intro hcon
        exact absurd hcon hv
      · intro _
        exact ⟨rfl, rfl⟩

/-- Claim C6: `removeSigner` (the privileged mutator, reached with the
self-caller) fails with the last-signer guard when only one signer
remains; with at least two signers it succeeds, replaces the removed
slot by the last entry and shrinks the sequence by exactly one
(`swapRemove` is verbatim the source's swap-with-last-then-truncate),
keeps the sequence duplicate-free with membership and index mappings
consistent, and, exactly when the removed signer had voted to pause,
decreases the pause-vote counter by one and clears their vote entry.
The hypotheses are the signer-arena and vote-ledger consistency facts of
honest states. -/
theorem removeSigner_spec (s : MState) (a : Addr)
    (ha : a ∈ s.isSigner)
    (hndS : s.signers.Nodup) (hndM : s.isSigner.Nodup)
    (hmem : ∀ b, b ∈ s.isSigner ↔ b ∈ s.signers)
    (hidx : ∀ b ∈ s.signers,
      ilook s.signerIndex b < s.signers.length ∧
      s.signers.getD (ilook s.signerIndex b) 0 = b)
    (hpv : s.pauseVotes = s.pauseVoters.length)
    (hndP : s.pauseVoters.Nodup) :
    (s.signers.length = 1 →
      removeSigner SELF a s = .error "NRM: Cannot remove last signer") ∧
    (1 < s.signers.length → (removeSigner SELF a s).isOk = true) ∧
    (∀ s', removeSigner SELF a s = .ok s' →
      s'.signers = swapRemove s.signers (ilook s.signerIndex a) ∧
      s'.signers.length + 1 = s.signers.length ∧
      s'.signers.Nodup ∧
      a ∉ s'.signers ∧
      (∀ b, b ∈ s'.isSigner ↔ b ∈ s'.signers) ∧
      (∀ b ∈ s'.signers,
        ilook s'.signerIndex b < s'.signers.length ∧
        s'.signers.getD (ilook s'.signerIndex b) 0 = b) ∧
      (a ∈ s.pauseVoters → s'.pauseVotes + 1 = s.pauseVotes ∧ a ∉ s'.pauseVoters) ∧
      (a ∉ s.pauseVoters → s'.pauseVotes = s.pauseVotes ∧
        s'.pauseVoters = s.pauseVoters)) := by
  have haS : a ∈ s.signers := (hmem a).mp ha
  obtain ⟨hia, hva⟩ := hidx a haS
  have hpanic : a ∈ s.pauseVoters → ¬ s.pauseVotes = 0 := by
    intro hv
    have hl : 0 < s.pauseVoters.length := List.length_pos.mpr (List.ne_nil_of_mem hv)
    omega
  refine ⟨?_, ?_, ?_⟩
  · intro hone
    unfold removeSigner
    rw [if_neg (by simp), if_neg (not_not_intro ha), if_pos (by omega)]
  · intro hlen
    by_cases hsw : ilook s.signerIndex a ≠ s.signers.length - 1 <;>
      by_cases hv : a ∈ s.pauseVoters
    · simp [removeSigner, ha, hlen, hsw, hv, hpanic hv, Except.isOk, Except.toBool]
    · simp [removeSigner, ha, hlen, hsw, hv, Except.isOk, Except.toBool]
    · simp [removeSigner, ha, hlen, hsw, hv, hpanic hv, Except.isOk, Except.toBool]
    · simp [removeSigner, ha, hlen, hsw, hv, Except.isOk, Except.toBool]
  · intro s' hok
    obtain ⟨hlen, hsig, hmap, hsidx, hvyes, hvno⟩ := removeSigner_shape ha hok
    have hmm : ∀ b, b ∈ s'.isSigner ↔ (b ≠ a ∧ b ∈ s.signers) := by
      intro b
      rw [hmap, mem_msetFalse hndM]
      exact and_congr_right (fun _ => hmem b)
    have hmm2 : ∀ b, b ∈ s'.signers ↔ (b ∈ s.signers ∧ b ≠ a) := by
      intro b
      rw [hsig]
      have h0 := swapRemove_mem s.signers (ilook s.signerIndex a) hndS hia b
      rw [hva] at h0
      exact h0
    refine ⟨hsig, ?_, ?_, ?_, ?_, ?_, ?_, ?_⟩
    · rw [hsig, swapRemove_length]
      omega
    · rw [hsig]
      exact swapRemove_nodup s.signers _ hndS hia
    · intro hcon
      exact ((hmm2 a).mp hcon).2 rfl
    · intro b
      rw [hmm b, hmm2 b]
      exact and_comm
    · intro b hb
      obtain ⟨hbS, hba⟩ := (hmm2 b).mp hb
      have hlen' : s'.signers.length = s.signers.length - 1 := by
        rw [hsig, swapRemove_length]
      by_cases hsw : ilook s.signerIndex a ≠ s.signers.length - 1
      · rw [if_pos hsw] at hsidx
        by_cases hbl : b = s.signers.getD (s.signers.length - 1) 0
        · have hbna : s.signers.getD (s.signers.length - 1) 0 ≠ a := by
            rw [← hbl]
            exact hba
          have hlk : ilook s'.signerIndex b = ilook s.signerIndex a := by
            rw [hsidx, hbl, ilook_idel_ne _ hbna, ilook_iset_self]
          constructor
          · rw [hlk, hlen']
            omega
          · rw [hlk, hsig,
              swapRemove_getD s.signers _ hia _ (by omega), if_pos rfl, hbl]
        · obtain ⟨hjb, hjv⟩ := hidx b hbS
          have hlk : ilook s'.signerIndex b = ilook s.signerIndex b := by
            rw [hsidx, ilook_idel_ne _ hba, ilook_iset_ne _ _ hbl]
          have hjne : ilook s.signerIndex b ≠ ilook s.signerIndex a := by
            intro hc
            rw [← hc, hjv] at hva
            exact hba hva
          have hjne2 : ilook s.signerIndex b ≠ s.signers.length - 1 := by
            intro hc
            rw [hc] at hjv
            exact hbl hjv.symm
          constructor
          · rw [hlk, hlen']
            omega
          · rw [hlk, hsig,
              swapRemove_getD s.signers _ hia _ (by omega), if_neg hjne]
            exact hjv
      · rw [if_neg hsw] at hsidx
        have hsw' : ilook s.signerIndex a = s.signers.length - 1 := by
          by_contra hc
          exact hsw hc
        obtain ⟨hjb, hjv⟩ := hidx b hbS
        have hlk : ilook s'.signerIndex b = ilook s.signerIndex b := by
          rw [hsidx, ilook_idel_ne _ hba]
        have hjne : ilook s.signerIndex b ≠ ilook s.signerIndex a := by
          intro hc
          rw [← hc, hjv] at hva
          exact hba hva
        have hjne2 : ilook s.signerIndex b ≠ s.signers.length - 1 := by
          rw [← hsw']
          exact hjne
        constructor
        · rw [hlk, hlen']
          omega
        · rw [hlk, hsig,
            swapRemove_getD s.signers _ hia _ (by omega), if_neg hjne]
          exact hjv
    · intro hv
      obtain ⟨hw1, hw2⟩ := hvyes hv
      have hl : 0 < s.pauseVoters.length := List.length_pos.mpr (List.ne_nil_of_mem hv)
      refine ⟨by omega, ?_⟩
      rw [hw1]
      exact hndP.not_mem_erase
    · intro hv
      obtain ⟨hw1, hw2⟩ := hvno hv
      exact ⟨hw2, hw1⟩

/-- Claim C1 (amended): in every reachable state the threshold is at
least 1 and every transaction record's `approvalCount` equals the number
of entries in its duplicate-free approval ledger.  The upper bounds of
the original claim — `approvalCount ≤ len(signers)` and
`threshold ≤ len(signers)` — are NOT invariants: signer removal breaks
both (see the counterexample trace). -/
theorem reachable_ledger_invariant (s : MState) (h : Reachable s) :
    1 ≤ s.threshold ∧
    ∀ t ∈ s.transactions,
      t.approvalCount = t.approvals.length ∧ t.approvals.Nodup := by
  obtain ⟨_, h2, h3⟩ := reachable_inv h
  exact ⟨h2, h3⟩

/-- Witness for `reachable_ledger_invariant` at the freshly constructed
two-signer wallet. -/
theorem reachable_ledger_invariant_witness :
    Reachable c1A ∧ (1 ≤ c1A.threshold ∧
      ∀ t ∈ c1A.transactions,
        t.approvalCount = t.approvals.length ∧ t.approvals.Nodup) := by
  have hr : Reachable c1A := Reachable.init [1, 2] 2 c1A (by decide)
  exact ⟨hr, reachable_ledger_invariant c1A hr⟩

/-- Claim C1 is false as stated: from `constructor([1,2], 2)`, submit a
self-targeted `removeSigner(2)` (auto-approved), approve by the second
signer, execute.  The reached state has one signer but threshold 2 and a
record with `approvalCount = 2 > 1 = len(signers)` — both upper bounds
of the claim fail in a reachable state. -/
theorem c1_counterexample :
    ctor [1, 2] 2 = .ok c1A ∧
    run (.submitA 1 0 SELF 0 (.removeSignerCall 2)) c1A = .ok c1B ∧
    run (.approveA 2 0 0) c1B = .ok c1C ∧
    run (.executeA 0 true 0) c1C = .ok c1D ∧
    Reachable c1D ∧
    c1D.signers.length < c1D.threshold ∧
    c1D.signers.length < (getTxn c1D 0).approvalCount := by
  have h0 : ctor [1, 2] 2 = .ok c1A := by decide
  have h1 : run (.submitA 1 0 SELF 0 (.removeSignerCall 2)) c1A = .ok c1B := by decide
  have h2 : run (.approveA 2 0 0) c1B = .ok c1C := by decide
  have h3 : run (.executeA 0 true 0) c1C = .ok c1D := by decide
  refine ⟨h0, h1, h2, h3, ?_, by decide, by decide⟩
  exact Reachable.step _ _ _
    (Reachable.step _ _ _
      (Reachable.step _ _ _ (Reachable.init [1, 2] 2 c1A h0) h1) h2) h3

/-- Claim C2 is false as stated: in `c2State` the five stated conditions
all hold for transaction 0 (a fully approved, unexpired batch payment,
contract unpaused, threshold 1 = signer count), yet `execute` fails —
the forwarded self-call into the `nonReentrant` batch-transfer entry
point trips the reentrancy latch already held by `executeTransaction`.
The claim's "iff" lacks the forwarded-call-success conjunct. -/
theorem c2_counterexample :
    c2State.threshold ≤ (getTxn c2State 0).approvalCount ∧
    (100 : Nat) ≤ (getTxn c2State 0).expiresAt ∧
    (getTxn c2State 0).executed = false ∧
    (getTxn c2State 0).cancelled = false ∧
    c2State.paused = false ∧
    1 ≤ c2State.threshold ∧ c2State.threshold ≤ c2State.signers.length ∧
    executeTransaction 100 true 0 c2State =
      .error "ReentrancyGuard: reentrant call" := by
  decide

/-- Witness for `execute_success_iff`: a successful execution decided at
the boundary timestamp `now = expiresAt` exactly. -/
theorem execute_success_iff_witness :
    1 ≤ w2State.threshold ∧ w2State.nonce = w2State.transactions.length ∧
    ((executeTransaction 50 true 0 w2State).isOk = true ↔
      (w2State.threshold ≤ (getTxn w2State 0).approvalCount ∧
       50 ≤ (getTxn w2State 0).expiresAt ∧
       (getTxn w2State 0).executed = false ∧
       (getTxn w2State 0).cancelled = false ∧
       w2State.paused = false ∧
       (doCall true (getTxn w2State 0).target (getTxn w2State 0).value
          (getTxn w2State 0).data
          (setTxn w2State 0 { getTxn w2State 0 with executed := true })).isOk = true)) :=
  ⟨by decide, by decide, execute_success_iff 50 true 0 w2State (by decide) (by decide)⟩

/-- Witness for `execute_failure_rollback`: an external target whose
call fails; the retry with a succeeding call goes through. -/
theorem execute_failure_rollback_witness :
    doCall false (getTxn w3State 0).target (getTxn w3State 0).value
      (getTxn w3State 0).data
      (setTxn w3State 0 { getTxn w3State 0 with executed := true }) = .error "" ∧
    ((executeTransaction 50 false 0 w3State).isOk = false ∧
     applyCall w3State (executeTransaction 50 false 0 w3State) = w3State ∧
     (getTxn (applyCall w3State (executeTransaction 50 false 0 w3State)) 0).executed =
       (getTxn w3State 0).executed ∧
     (w3State.paused = false → txExists w3State 0 →
       (getTxn w3State 0).executed = false →
       (getTxn w3State 0).cancelled = false →
       50 ≤ (getTxn w3State 0).expiresAt →
       w3State.threshold ≤ (getTxn w3State 0).approvalCount →
       doCall true (getTxn w3State 0).target (getTxn w3State 0).value
         (getTxn w3State 0).data
         (setTxn w3State 0 { getTxn w3State 0 with executed := true }) = .ok w3Marked →
       executeTransaction 50 true 0 w3State = .ok w3Marked)) :=
  ⟨by decide,
   execute_failure_rollback w3State 50 50 false true 0 "" w3Marked (by decide)⟩

/-- Claim C4 is false as stated: while paused, `expireTransaction` — a
state-mutating entry point that is neither the vote-to-unpause nor a
read-only query — succeeds and changes the state (it cancels the expired
record); and the pause vote is rejected with the already-paused error,
not the contract-paused error. -/
theorem c4_counterexample :
    c4State.paused = true ∧
    expireTransaction 11 0 c4State =
      .ok (setTxn c4State 0 { getTxn c4State 0 with cancelled := true }) ∧
    applyCall c4State (expireTransaction 11 0 c4State) ≠ c4State ∧
    (getTxn (applyCall c4State (expireTransaction 11 0 c4State)) 0).cancelled = true ∧
    votePause 2 c4State = .error "NRM: Already paused" := by
  decide

/-- Witness for `paused_rejects_mutators` on the paused wallet
`c4State` with signer 1 as caller. -/
theorem paused_rejects_mutators_witness :
    c4State.paused = true ∧ (1 : Addr) ∈ c4State.isSigner ∧
    (deposit 1 c4State = .error "NRM: Contract paused" ∧
     submitTransaction 1 0 7 0 (.raw [1]) c4State = .error "NRM: Contract paused" ∧
     submitBatchPayment 1 0 [3] [4] c4State = .error "NRM: Contract paused" ∧
     approveTransaction 1 0 0 c4State = .error "NRM: Contract paused" ∧
     revokeApproval 1 0 0 c4State = .error "NRM: Contract paused" ∧
     cancelTransaction 1 0 0 c4State = .error "NRM: Contract paused" ∧
     executeTransaction 0 true 0 c4State = .error "NRM: Contract paused" ∧
     submitAddSigner 1 0 7 c4State = .error "NRM: Contract paused" ∧
     submitRemoveSigner 1 0 7 c4State = .error "NRM: Contract paused" ∧
     submitChangeThreshold 1 0 1 c4State = .error "NRM: Contract paused" ∧
     submitWithdraw 1 0 8 1 c4State = .error "NRM: Contract paused" ∧
     votePause 1 c4State = .error "NRM: Already paused" ∧
     (∀ msg : String, applyCall c4State (.error msg) = c4State)) :=
  ⟨by decide, by decide,
   paused_rejects_mutators c4State 1 7 8 0 0 1 0 1 (.raw [1]) true [3] [4]
     (by decide) (by decide)⟩

/-- Witness for `finalized_record_immutable`: a deposit step leaves the
executed record of `w5State` untouched. -/
theorem finalized_record_immutable_witness :
    w5State.nonce = w5State.transactions.length ∧
    run (Act.depositA 9 5) w5State = .ok w5After ∧
    ((getTxn w5State 0).executed = true ∨ (getTxn w5State 0).cancelled = true) ∧
    getTxn w5After 0 = getTxn w5State 0 :=
  ⟨by decide, by decide, by decide,
   finalized_record_immutable (Act.depositA 9 5) w5State w5After 0
     (by decide) (by decide) (by decide)⟩

/-- Claim C7 is false as stated, in two places.  First, an unpause vote
by a signer who previously voted to pause is still rejected when the
contract is not paused (the claim's failure condition omits the paused
requirement).  Second, when the counter drops below the majority bound,
the full reset zeroes the counter instead of merely decrementing it:
from 3 standing votes the claim's reading predicts a counter of 2, the
code leaves 0. -/
theorem c7_counterexample :
    ((1 : Addr) ∈ c7State.pauseVoters ∧ c7State.paused = false ∧
      voteUnpause 1 c7State = .error "NRM: Not paused") ∧
    (c7StateB.paused = true ∧ (1 : Addr) ∈ c7StateB.pauseVoters ∧
      c7StateB.pauseVotes = 3 ∧ c7StateB.signers.length = 5 ∧
      voteUnpause 1 c7StateB =
        .ok { c7StateB with paused := false, pauseVotes := 0, pauseVoters := [] } ∧
      c7StateB.pauseVotes - 1 ≠ 0) := by
  decide

/-- Witness for `pause_vote_spec` with signer 2 on a three-signer wallet
holding one standing pause vote. -/
theorem pause_vote_spec_witness :
    (2 : Addr) ∈ w7State.isSigner ∧ w7State.pauseVoters.Nodup ∧
    w7State.pauseVotes = w7State.pauseVoters.length ∧
    ((w7State.paused = true → votePause 2 w7State = .error "NRM: Already paused") ∧
     (w7State.paused = false → (2 : Addr) ∈ w7State.pauseVoters →
       votePause 2 w7State = .error "NRM: Already voted to pause") ∧
     (w7State.paused = false → (2 : Addr) ∉ w7State.pauseVoters →
       (votePause 2 w7State).isOk = true) ∧
     (w7State.paused = false → (2 : Addr) ∉ w7State.pauseVoters → ∀ s',
       votePause 2 w7State = .ok s' →
       s'.pauseVoters = msetTrue w7State.pauseVoters 2 ∧
       s'.pauseVotes = w7State.pauseVotes + 1 ∧
       (s'.paused = true ↔
         w7State.signers.length / 2 + 1 ≤ w7State.pauseVotes + 1)) ∧
     (w7State.paused = false → voteUnpause 2 w7State = .error "NRM: Not paused") ∧
     (w7State.paused = true → (2 : Addr) ∉ w7State.pauseVoters →
       voteUnpause 2 w7State = .error "NRM: Must have voted to pause first") ∧
     (w7State.paused = true → (2 : Addr) ∈ w7State.pauseVoters →
       (voteUnpause 2 w7State).isOk = true) ∧
     (w7State.paused = true → (2 : Addr) ∈ w7State.pauseVoters → ∀ s',
       voteUnpause 2 w7State = .ok s' →
       (2 : Addr) ∉ s'.pauseVoters ∧
       (w7State.signers.length / 2 + 1 ≤ w7State.pauseVotes - 1 →
         s'.paused = true ∧ s'.pauseVotes = w7State.pauseVotes - 1 ∧
         s'.pauseVoters = msetFalse w7State.pauseVoters 2) ∧
       (w7State.pauseVotes - 1 < w7State.signers.length / 2 + 1 →
         s'.paused = false ∧ s'.pauseVotes = 0 ∧
         ∀ b ∈ w7State.signers, b ∉ s'.pauseVoters))) :=
  ⟨by decide, by decide, by decide,
   pause_vote_spec 2 w7State (by decide) (by decide) (by decide)⟩

/-- Witness for `removeSigner_spec`: removing signer 1 (a pause voter at
a non-last slot) from a three-signer wallet. -/
theorem removeSigner_spec_witness :
    (1 : Addr) ∈ w6State.isSigner ∧
    w6State.signers.Nodup ∧ w6State.isSigner.Nodup ∧
    (∀ b, b ∈ w6State.isSigner ↔ b ∈ w6State.signers) ∧
    (∀ b ∈ w6State.signers,
      ilook w6State.signerIndex b < w6State.signers.length ∧
      w6State.signers.getD (ilook w6State.signerIndex b) 0 = b) ∧
    w6State.pauseVotes = w6State.pauseVoters.length ∧
    w6State.pauseVoters.Nodup ∧
    ((w6State.signers.length = 1 →
       removeSigner SELF 1 w6State = .error "NRM: Cannot remove last signer") ∧
     (1 < w6State.signers.length → (removeSigner SELF 1 w6State).isOk = true) ∧
     (∀ s', removeSigner SELF 1 w6State = .ok s' →
       s'.signers = swapRemove w6State.signers (ilook w6State.signerIndex 1) ∧
       s'.signers.length + 1 = w6State.signers.length ∧
       s'.signers.Nodup ∧
       (1 : Addr) ∉ s'.signers ∧
       (∀ b, b ∈ s'.isSigner ↔ b ∈ s'.signers) ∧
       (∀ b ∈ s'.signers,
         ilook s'.signerIndex b < s'.signers.length ∧
         s'.signers.getD (ilook s'.signerIndex b) 0 = b) ∧
       ((1 : Addr) ∈ w6State.pauseVoters →
         s'.pauseVotes + 1 = w6State.pauseVotes ∧ (1 : Addr) ∉ s'.pauseVoters) ∧
       ((1 : Addr) ∉ w6State.pauseVoters →
         s'.pauseVotes = w6State.pauseVotes ∧
         s'.pauseVoters = w6State.pauseVoters))) :=
  ⟨by decide, by decide, by decide, fun _ => Iff.rfl, by decide, by decide, by decide,
   removeSigner_spec w6State 1 (by decide) (by decide) (by decide)
     (fun _ => Iff.rfl) (by decide) (by decide) (by decide)⟩

/-- Witness for `submitBatch_spec`: a two-recipient batch against a
sufficient pooled balance. -/
theorem submitBatch_spec_witness :
    (1 : Addr) ∈ w8State.isSigner ∧ w8State.paused = false ∧
    w8State.nonce = w8State.transactions.length ∧
    (((submitBatchPayment 1 0 [5, 6] [100, 200] w8State).isOk = true ↔
       (([5, 6] : List Addr).length = ([100, 200] : List Nat).length ∧
        0 < ([5, 6] : List Addr).length ∧
        ([5, 6] : List Addr).length ≤ MAX_BATCH_SIZE ∧
        (∀ r ∈ ([5, 6] : List Addr), r ≠ 0) ∧
        (∀ x ∈ ([100, 200] : List Nat), 0 < x) ∧
        ([100, 200] : List Nat).sum ≤ w8State.balance)) ∧
     (∀ r : Nat × MState,
       submitBatchPayment 1 0 [5, 6] [100, 200] w8State = .ok r →
       r.1 = w8State.nonce ∧ r.2.nonce = w8State.nonce + 1 ∧
       getTxn r.2 r.1 =
         { target := SELF, value := 0,
           data := .batchTransferCall [5, 6] [100, 200], executed := false,
           cancelled := false, approvalCount := 1, submittedAt := 0,
           expiresAt := 0 + TRANSACTION_EXPIRY, approvals := [1] }) ∧
     ((submitBatchPayment 1 0 [5, 6] [100, 200] w8State).isOk = false →
       applyCall w8State (run (Act.submitBatchA 1 0 [5, 6] [100, 200]) w8State) =
         w8State)) :=
  ⟨by decide, by decide, by decide,
   submitBatch_spec 1 0 [5, 6] [100, 200] w8State (by decide) (by decide) (by decide)⟩

/-- Witness for `cancel_spec`: the approval-holding signer 1 cancelling
the pending transaction of `w9State` before expiry. -/
theorem cancel_spec_witness :
    (1 : Addr) ∈ w9State.isSigner ∧ w9State.paused = false ∧
    txExists w9State 0 ∧ w9State.nonce = w9State.transactions.length ∧
    (getTxn w9State 0).executed = false ∧
    (getTxn w9State 0).cancelled = false ∧
    (getTxn w9State 0).approvalCount = (getTxn w9State 0).approvals.length ∧
    ((50 ≤ (getTxn w9State 0).expiresAt →
       ((cancelTransaction 1 50 0 w9State).isOk = true ↔
         (1 : Addr) ∈ (getTxn w9State 0).approvals)) ∧
     ((getTxn w9State 0).expiresAt < 50 →
       cancelTransaction 1 50 0 w9State =
         .ok (setTxn w9State 0 { getTxn w9State 0 with cancelled := true })) ∧
     (∀ s', cancelTransaction 1 50 0 w9State = .ok s' →
       s' = setTxn w9State 0 { getTxn w9State 0 with cancelled := true } ∧
       getTxn s' 0 = { getTxn w9State 0 with cancelled := true } ∧
       (getTxn s' 0).approvalCount = (getTxn w9State 0).approvalCount)) :=
  ⟨by decide, by decide, by decide, by decide, by decide, by decide, by decide,
   cancel_spec 1 50 0 w9State (by decide) (by decide) (by decide) (by decide)
     (by decide) (by decide) (by decide)⟩

/-- Witness for `removeSigner_threshold_check` on a two-signer wallet
with full-quorum threshold 2: submitting the removal of signer 2 is
rejected, while the privileged mutator removes them regardless. -/
theorem removeSigner_threshold_check_witness :
    ((2 : Addr) ∈ w10State.pauseVoters → w10State.pauseVotes ≠ 0) ∧
    ((w10State.signers.length - 1 < w10State.threshold →
       (submitRemoveSigner 1 0 2 w10State).isOk = false ∧
       applyCall w10State (run (Act.submitRemoveSignerA 1 0 2) w10State) = w10State) ∧
     ((2 : Addr) ∈ w10State.isSigner → 1 < w10State.signers.length →
       (removeSigner SELF 2 w10State).isOk = true)) :=
  ⟨by decide, removeSigner_threshold_check w10State 1 2 0 (by decide)⟩

end NRM
